import Mathlib

/-! # Field dashboard front end: scheduler page, portal access page and service worker

A shallow embedding of the parts of `frontend/src/pages/Scheduler.jsx`,
`frontend/src/pages/PortalAccess.jsx` and `frontend/public/service-worker.js`
that decide the properties proved below.

* JavaScript values that reach the code as JSON scalars are `JsVal`.
* A React handler is a function from the component state (and the outcome of
  the request it awaits) to the requests it sends, the toasts it raises and the
  next state.
* A service-worker handler is a function from the environment (`fetch`, the
  worker origin) and the `CacheStorage` to the response it settles with, the
  next `CacheStorage` and the ordered trace of browser calls it made.
-/

namespace FieldDashboard

/-! ## JavaScript values -/

/-- JSON scalars as JavaScript sees them after parsing; numbers are the
integral ones, which is all the code below distinguishes (zero or not). -/
inductive JsVal where
  | undefined
  | null
  | bool (b : Bool)
  | num (n : Int)
  | str (s : String)
  deriving DecidableEq, Repr

namespace JsVal

/-- ToBoolean: what `!v` and `v || w` test. -/
def truthy : JsVal → Bool
  | undefined => false
  | null => false
  | bool b => b
  | num n => n != 0
  | str s => s != ""

/-- ToString, as used by a template literal. -/
def toStr : JsVal → String
  | undefined => "undefined"
  | null => "null"
  | bool true => "true"
  | bool false => "false"
  | num n => toString n
  | str s => s

end JsVal

/-! ## Scheduler.jsx -/

/-- A job object of the REST API, with the properties the scheduler reads. -/
structure Job where
  id : JsVal
  job_number : JsVal
  customer_id : JsVal
  site_id : JsVal
  assigned_engineer_id : JsVal
  scheduled_date : JsVal
  scheduled_time : JsVal
  estimated_duration : JsVal
  status : JsVal
  priority : JsVal
  deriving DecidableEq, Repr

/-- The local calendar components of a valid `Date`. -/
structure JsDate where
  year : Nat
  month : Nat
  day : Nat
  deriving DecidableEq, Repr

/-- Decimal digits of `n`, left-padded with zeros to `width`. -/
def zeroPad (width n : Nat) : String :=
  let digits := toString n
  String.mk (List.replicate (width - digits.length) '0') ++ digits

/-- The result of `moment(date).format("YYYY-MM-DD")`. -/
def formatYMD (d : JsDate) : String :=
  zeroPad 4 d.year ++ "-" ++ zeroPad 2 d.month ++ "-" ++ zeroPad 2 d.day

/-- A call of the axios client: method, path and JSON body as an ordered list
of properties. -/
structure ApiRequest where
  method : String
  url : String
  body : List (String × JsVal)
  deriving DecidableEq, Repr

/-- A `sonner` toast. -/
inductive Toast where
  | success (msg : String)
  | error (msg : String)
  deriving DecidableEq, Repr

/-- State of the `Scheduler` component that the handlers below can see. -/
structure SchedulerState where
  refreshTrigger : Nat
  date : JsDate
  view : String
  scheduledJobs : List Job
  unscheduledJobs : List Job
  deriving DecidableEq, Repr

/-- What one run of a handler did. -/
structure HandlerResult where
  requests : List ApiRequest
  toasts : List Toast
  state : SchedulerState
  deriving DecidableEq, Repr

/-- The function `triggerRefresh`: `setRefreshTrigger((prev) => prev + 1)`. -/
def triggerRefresh (s : SchedulerState) : SchedulerState :=
  ⟨s.refreshTrigger + 1, s.date, s.view, s.scheduledJobs, s.unscheduledJobs⟩

/-- The handler `handleDropOnCalendar(job)`; `putOk` tells whether the awaited
`api.put` resolved (`true`) or rejected (`false`). -/
def handleDropOnCalendar (s : SchedulerState) (job : Job) (putOk : Bool) : HandlerResult :=
  let scheduledDate := formatYMD s.date
  let scheduledTime := "09:00"
  let request : ApiRequest :=
    ⟨"PUT", "/jobs/" ++ job.id.toStr,
      [("scheduled_date", JsVal.str scheduledDate), ("scheduled_time", JsVal.str scheduledTime)]⟩
  if putOk then
    ⟨[request],
      [Toast.success ("Job " ++ job.job_number.toStr ++ " scheduled for " ++ scheduledDate)],
      triggerRefresh s⟩
  else
    ⟨[request], [Toast.error "Failed to schedule job"], s⟩

/-- The filter callback of `useUnscheduledJobs`:
`!job.scheduled_date || !job.assigned_engineer_id || job.status === "pending"`. -/
def isUnscheduled (job : Job) : Bool :=
  !job.scheduled_date.truthy || !job.assigned_engineer_id.truthy
    || decide (job.status = JsVal.str "pending")

/-- One run of `fetchJobs` inside `useUnscheduledJobs`: `prev` is the hook state
`jobs`, `response` the data of `GET /jobs` (`none` when the request rejects).
Returns the next `jobs` and the toasts raised. -/
def useUnscheduledJobs (prev : List Job) (response : Option (List Job)) : List Job × List Toast :=
  match response with
  | some data => (data.filter isUnscheduled, [])
  | none => (prev, [Toast.error "Failed to load unscheduled jobs"])

/-! ## service-worker.js: data -/

/-- The constant `CACHE_NAME`. -/
def CACHE_NAME : String := "craven-cooling-v1"

/-- The constant `OFFLINE_URL`. -/
def OFFLINE_URL : String := "/offline.html"

/-- Resources to cache immediately. -/
def PRECACHE_URLS : List String :=
  ["/", "/index.html", "/offline.html", "/static/js/main.js", "/static/css/main.css",
    "/manifest.json"]

/-- API routes to cache for offline. -/
def API_CACHE_ROUTES : List String :=
  ["/api/jobs/my-jobs", "/api/customers", "/api/sites", "/api/assets", "/api/parts"]

/-- The pieces of a list of characters between occurrences of `sep`. -/
def splitChars (sep : Char) : List Char → List (List Char)
  | [] => [[]]
  | c :: cs =>
    if c = sep then [] :: splitChars sep cs
    else
      match splitChars sep cs with
      | [] => [[c]]
      | piece :: pieces => (c :: piece) :: pieces

/-- `String.prototype.split` with a one-character separator. -/
def jsSplit (s : String) (sep : Char) : List String :=
  (splitChars sep s.data).map String.mk

/-- `String.prototype.startsWith`. -/
def startsWith (s pre : String) : Bool :=
  pre.data.isPrefixOf s.data

/-- Whether `sub` occurs in `cs` as a contiguous run. -/
def includesChars (sub : List Char) : List Char → Bool
  | [] => sub.isEmpty
  | c :: cs => sub.isPrefixOf (c :: cs) || includesChars sub cs

/-- `String.prototype.includes`. -/
def includes (s sub : String) : Bool :=
  includesChars sub.data s.data

/-- A parsed URL (`new URL(request.url)`), without its fragment. -/
structure Url where
  origin : String
  pathname : String
  search : String
  deriving DecidableEq, Repr

/-- A `Request`, with the properties the worker reads. -/
structure Request where
  method : String
  url : Url
  mode : String
  deriving DecidableEq, Repr

/-- A `Response`: status, the header entries it was created or received with,
and its body text. -/
structure Response where
  status : Nat
  headers : List (String × String)
  body : String
  deriving DecidableEq, Repr

/-- The getter `response.ok`: the status is in the range 200 to 299. -/
def Response.ok (r : Response) : Bool :=
  decide (200 ≤ r.status) && decide (r.status ≤ 299)

/-- The request the browser builds from one of this file's absolute-path URL
strings, resolved against the worker's origin (`new Request(path)`). -/
def Request.ofPath (origin path : String) : Request :=
  ⟨"GET", ⟨origin, path, ""⟩, "cors"⟩

/-- One `Cache`: request URL keys with their stored responses, oldest first. -/
abbrev Cache := List (Url × Response)

/-- The `CacheStorage` object `caches`: named caches in creation order. -/
abbrev CacheStorage := List (String × Cache)

/-- `cache.match(request)`: only GET requests match, by URL. -/
def cacheMatch (c : Cache) (request : Request) : Option Response :=
  if request.method = "GET" then (c.find? (fun e => decide (e.1 = request.url))).map Prod.snd
  else none

/-- `caches.match(request)`: the first match over all caches, in creation
order; `none` is the `undefined` the promise resolves to without a match. -/
def cachesMatch (cs : CacheStorage) (request : Request) : Option Response :=
  cs.findSome? (fun nc => cacheMatch nc.2 request)

/-- `caches.keys()`. -/
def cachesKeys (cs : CacheStorage) : List String :=
  cs.map Prod.fst

/-- `caches.open(name)`: creates the cache when there is none of that name. -/
def cachesOpen (cs : CacheStorage) (name : String) : CacheStorage :=
  if name ∈ cachesKeys cs then cs else cs ++ [(name, [])]

/-- `caches.delete(name)`. -/
def cachesDelete (cs : CacheStorage) (name : String) : CacheStorage :=
  cs.filter (fun nc => decide (nc.1 ≠ name))

/-- `cache.put(request, response)` on one cache: the entry of that URL is
replaced. -/
def cachePutEntry (c : Cache) (request : Request) (response : Response) : Cache :=
  c.filter (fun e => decide (e.1 ≠ request.url)) ++ [(request.url, response)]

/-- `cache.put(request, response)` on the cache called `name`. -/
def cachePut (cs : CacheStorage) (name : String) (request : Request) (response : Response) :
    CacheStorage :=
  cs.map (fun nc => if nc.1 = name then (nc.1, cachePutEntry nc.2 request response) else nc)

/-- Whether the `Vary` header of a response holds `*` (header names compare
without regard to case, the value is a comma-separated list). -/
def varyHasStar (response : Response) : Bool :=
  response.headers.any (fun header =>
    header.1.data.map Char.toLower == "vary".data
      && (splitChars ',' header.2.data).any (fun field =>
        field.filter (fun c => c != ' ' && c != '\t') == ['*']))

/-- Whether `cache.put(request, response)` stores the response. The Cache API
rejects the call with a `TypeError`, and stores nothing, when the scheme of the
request URL is not `http` or `https`, when the request method is not GET, when
the response status is 206, and when the `Vary` header of the response holds
`*`. -/
def cachePutAccepts (request : Request) (response : Response) : Bool :=
  (startsWith request.url.origin "http://" || startsWith request.url.origin "https://")
    && decide (request.method = "GET") && decide (response.status ≠ 206)
    && !varyHasStar response

/-- `caches.open(name).then((cache) => cache.put(request, response))`: the
cache is opened, and created when there is none of that name, in every case;
the response is stored when `cache.put` accepts it. A rejected `cache.put` is
not awaited by the callers below, so it changes nothing else. -/
def openAndPut (cs : CacheStorage) (name : String) (request : Request) (response : Response) :
    CacheStorage :=
  if cachePutAccepts request response then cachePut (cachesOpen cs name) name request response
  else cachesOpen cs name

/-- A browser call made by the worker, for the ordered trace of a handler. -/
inductive Effect where
  | fetched (request : Request)
  | matched (request : Request)
  | opened (name : String)
  | stored (name : String) (request : Request) (response : Response)
  | putRejected (name : String) (request : Request) (response : Response)
  | listedKeys
  | deleted (name : String)
  deriving DecidableEq, Repr

/-- Whether an effect reads a cache (`caches.match`). -/
def Effect.isCacheRead : Effect → Bool
  | Effect.matched _ => true
  | _ => false

/-- Whether an effect writes a response into a cache. -/
def Effect.isCacheWrite : Effect → Bool
  | Effect.stored _ _ _ => true
  | _ => false

/-- Whether an effect is a call of `cache.put`, stored or rejected. -/
def Effect.isPutCall : Effect → Bool
  | Effect.stored _ _ _ => true
  | Effect.putRejected _ _ _ => true
  | _ => false

/-- The trace entry of one call `cache.put(request, response)` on the cache
`name`: `stored` when the Cache API accepts it, `putRejected` otherwise. -/
def putEffect (name : String) (request : Request) (response : Response) : Effect :=
  if cachePutAccepts request response then Effect.stored name request response
  else Effect.putRejected name request response

/-- Whether an effect is a network fetch. -/
def Effect.isFetch : Effect → Bool
  | Effect.fetched _ => true
  | _ => false

/-- What the worker runs in: its own origin and the network, where
`fetch request = none` stands for a rejected `fetch(request)`. -/
structure WorkerEnv where
  origin : String
  fetch : Request → Option Response

/-- `JSON.stringify` of a string without characters that need a `\u` escape. -/
def jsonQuote (s : String) : String :=
  let escape (c : Char) : List Char :=
    if c = '"' then ['\\', '"'] else if c = '\\' then ['\\', '\\'] else [c]
  "\"" ++ String.mk (s.data.flatMap escape) ++ "\""

/-- `JSON.stringify` of a scalar property value. -/
def jsonValue : JsVal → String
  | JsVal.str s => jsonQuote s
  | JsVal.undefined => "null"
  | v => v.toStr

/-- `JSON.stringify` of a flat object literal; a property whose value is
`undefined` is left out. -/
def jsonStringify (obj : List (String × JsVal)) : String :=
  let props := obj.filter (fun kv => decide (kv.2 ≠ JsVal.undefined))
  "\x7b" ++ ",".intercalate (props.map (fun kv => jsonQuote kv.1 ++ ":" ++ jsonValue kv.2)) ++ "\x7d"

/-! ## service-worker.js: handlers

The browser calls behave as the Fetch and Cache APIs describe them inside a
service worker: `fetch` either resolves with a response or rejects;
`caches.open`, `caches.match`, `caches.keys` and `caches.delete` settle
without rejecting; `cache.put` stores the response, or rejects and stores
nothing in the cases of `cachePutAccepts`; `response.clone()` is a copy equal
to the response. A put that the code starts without awaiting it is counted as
settled in the storage a handler leaves behind. -/

/-- What a promise handed to `event.respondWith` (or `event.waitUntil`) did by
the time it and the work it started have settled: the value it resolved to
(`none` for `undefined`), the cache storage left behind, and the browser calls
in order. -/
structure Outcome where
  response : Option Response
  caches : CacheStorage
  trace : List Effect
  deriving DecidableEq, Repr

/-- The 503 body of `handleAPIRequest`:
`JSON.stringify({ error: 'Offline', cached: false })`. -/
def offlineJsonBody : String :=
  jsonStringify [("error", JsVal.str "Offline"), ("cached", JsVal.bool false)]

/-- The function `handleAPIRequest(request)` (network first). -/
def handleAPIRequest (env : WorkerEnv) (cs : CacheStorage) (request : Request) : Outcome :=
  let shouldCache := API_CACHE_ROUTES.any (fun route => includes request.url.pathname route)
  match env.fetch request with
  | some response =>
    if response.ok && shouldCache then
      ⟨some response, openAndPut cs CACHE_NAME request response,
        [Effect.fetched request, Effect.opened CACHE_NAME,
          putEffect CACHE_NAME request response]⟩
    else
      ⟨some response, cs, [Effect.fetched request]⟩
  | none =>
    match cachesMatch cs request with
    | some cachedResponse =>
      ⟨some cachedResponse, cs, [Effect.fetched request, Effect.matched request]⟩
    | none =>
      ⟨some ⟨503, [("Content-Type", "application/json")], offlineJsonBody⟩, cs,
        [Effect.fetched request, Effect.matched request]⟩

/-- What the `fetch` listener did with one event: whether it called
`event.respondWith`, and if so the outcome of the promise it passed. -/
structure ListenerResult where
  responded : Bool
  response : Option Response
  caches : CacheStorage
  trace : List Effect
  deriving DecidableEq, Repr

/-- The `fetch` event listener. -/
def fetchListener (env : WorkerEnv) (cs : CacheStorage) (request : Request) : ListenerResult :=
  if request.method ≠ "GET" then
    ⟨false, none, cs, []⟩
  else if startsWith request.url.pathname "/api/" then
    let o := handleAPIRequest env cs request
    ⟨true, o.response, o.caches, o.trace⟩
  else
    match cachesMatch cs request with
    | some cachedResponse => ⟨true, some cachedResponse, cs, [Effect.matched request]⟩
    | none =>
      match env.fetch request with
      | some response =>
        if response.ok then
          ⟨true, some response, openAndPut cs CACHE_NAME request response,
            [Effect.matched request, Effect.fetched request, Effect.opened CACHE_NAME,
              putEffect CACHE_NAME request response]⟩
        else
          ⟨true, some response, cs, [Effect.matched request, Effect.fetched request]⟩
      | none =>
        if request.mode = "navigate" then
          ⟨true, cachesMatch cs (Request.ofPath env.origin OFFLINE_URL), cs,
            [Effect.matched request, Effect.fetched request,
              Effect.matched (Request.ofPath env.origin OFFLINE_URL)]⟩
        else
          ⟨true, some ⟨503, [], "Offline"⟩, cs,
            [Effect.matched request, Effect.fetched request]⟩

/-- The cache storage after the `fetch` listener has handled a run of events in
turn, each with the network as it was at that time. -/
def fetchEvents (cs : CacheStorage) : List (WorkerEnv × Request) → CacheStorage
  | [] => cs
  | event :: rest => fetchEvents (fetchListener event.1 cs event.2).caches rest

/-- The work of `cache.addAll(urls)`: every URL is fetched, and the call
rejects (`none`) unless every fetch resolves with an ok response. The Cache
API rejects the call in further cases (a response of status 206 or with
`Vary: *`); those only make fewer installs succeed than here. -/
def addAllFetch (env : WorkerEnv) (paths : List String) : Option (List (Request × Response)) :=
  paths.mapM (fun path =>
    match env.fetch (Request.ofPath env.origin path) with
    | some response => if response.ok then some (Request.ofPath env.origin path, response) else none
    | none => none)

/-- What the `install` listener did: whether the promise given to
`event.waitUntil` resolved, and the cache storage left behind. -/
structure InstallResult where
  ok : Bool
  caches : CacheStorage
  deriving DecidableEq, Repr

/-- The `install` event listener:
`caches.open(CACHE_NAME).then((cache) => cache.addAll(PRECACHE_URLS))`. -/
def install (env : WorkerEnv) (cs : CacheStorage) : InstallResult :=
  let opened := cachesOpen cs CACHE_NAME
  match addAllFetch env PRECACHE_URLS with
  | some entries =>
    ⟨true, entries.foldl (fun acc e => cachePut acc CACHE_NAME e.1 e.2) opened⟩
  | none => ⟨false, opened⟩

/-- What the `activate` listener did: the names it passed to `caches.delete`,
and the cache storage left behind. -/
structure ActivateResult where
  deleted : List String
  caches : CacheStorage
  trace : List Effect
  deriving DecidableEq, Repr

/-- The `activate` event listener: every key other than `CACHE_NAME` is
deleted. -/
def activate (cs : CacheStorage) : ActivateResult :=
  let cacheNames := cachesKeys cs
  let old := cacheNames.filter (fun name => decide (name ≠ CACHE_NAME))
  ⟨old, old.foldl cachesDelete cs, Effect.listedKeys :: old.map Effect.deleted⟩

/-! ## Scheduler.jsx: calendar events and drop zone -/

/-- A customer object of the REST API, with the properties the pages read. -/
structure Customer where
  id : JsVal
  company_name : JsVal
  deriving DecidableEq, Repr

/-- An engineer object of the REST API, with the properties the scheduler
reads. -/
structure Engineer where
  id : JsVal
  name : JsVal
  email : JsVal
  deriving DecidableEq, Repr

/-- The expression `a || b`. -/
def JsVal.orElse (a b : JsVal) : JsVal :=
  if a.truthy then a else b

/-- An argument of `setHours`: `parseInt(text)` of a piece of the time string
(`none` when that piece is `undefined`), or a number literal. -/
inductive HoursArg where
  | parseInt (text : Option String)
  | literal (n : Nat)
  deriving DecidableEq, Repr

/-- The `Date` object `startDate`, as the calls that build it:
`new Date(source)`, then `setHours(hours, minutes)`. -/
structure StartDate where
  source : JsVal
  hours : HoursArg
  minutes : HoursArg
  deriving DecidableEq, Repr

/-- The `Date` object `endDate`, as the call that builds it:
`new Date(start.getTime() + duration * 60000)`. -/
structure EndDate where
  start : StartDate
  duration : JsVal
  deriving DecidableEq, Repr

/-- An event object handed to the calendar (`end_` is its property `end`). -/
structure CalendarEvent where
  id : JsVal
  title : String
  start : StartDate
  end_ : EndDate
  resource : Job
  engineer : JsVal
  resourceId : JsVal
  deriving DecidableEq, Repr

/-- The `map` callback of `events`, for one job. The result is `none` when the
callback throws: `job.scheduled_time.split` is not a function when the time is
truthy and not a string. -/
def eventOfJob (customers : List Customer) (engineers : List Engineer) (job : Job) :
    Option CalendarEvent :=
  let customer := customers.find? (fun c => decide (c.id = job.customer_id))
  let engineer := engineers.find? (fun e => decide (e.id = job.assigned_engineer_id))
  let startDate : Option StartDate :=
    if job.scheduled_time.truthy then
      match job.scheduled_time with
      | JsVal.str time =>
        let pieces := jsSplit time ':'
        some ⟨job.scheduled_date, HoursArg.parseInt pieces[0]?, HoursArg.parseInt pieces[1]?⟩
      | _ => none
    else
      some ⟨job.scheduled_date, HoursArg.literal 9, HoursArg.literal 0⟩
  startDate.map (fun start =>
    ⟨job.id,
      job.job_number.toStr ++ " - "
        ++ (JsVal.orElse (match customer with
              | some c => c.company_name
              | none => JsVal.undefined) (JsVal.str "Unknown")).toStr,
      start,
      ⟨start, JsVal.orElse job.estimated_duration (JsVal.num 60)⟩,
      job,
      match engineer with
      | some e => e.name
      | none => JsVal.undefined,
      job.assigned_engineer_id⟩)

/-- The memoised value `events`:
`scheduledJobs.filter((job) => job.scheduled_date).map(...)`; `none` when the
`map` callback throws. -/
def events (scheduledJobs : List Job) (customers : List Customer) (engineers : List Engineer) :
    Option (List CalendarEvent) :=
  (scheduledJobs.filter (fun job => job.scheduled_date.truthy)).mapM
    (eventOfJob customers engineers)

/-- The item a `DraggableJobCard` carries: `{ job }`. -/
structure DragItem where
  job : Job
  deriving DecidableEq, Repr

/-- What the drop target monitor knows about where the drop happened
(`monitor.getClientOffset()`). -/
structure DropMonitor where
  clientOffset : Option (Int × Int)
  deriving DecidableEq, Repr

/-- The `drop` callback of `CalendarDropZone`:
`(item, monitor) => { onDrop(item.job); }`. -/
def calendarDropZoneDrop {α : Type} (onDrop : Job → α) (item : DragItem) (_monitor : DropMonitor) :
    α :=
  onDrop item.job

/-- The handler `handleNavigate(newDate)`: `setDate(newDate)`. -/
def handleNavigate (s : SchedulerState) (newDate : JsDate) : SchedulerState :=
  ⟨s.refreshTrigger, newDate, s.view, s.scheduledJobs, s.unscheduledJobs⟩

/-- A drop on the mounted calendar: the requests sent and the toasts raised.
`CalendarDropZone` calls `useDrop(() => ({ ..., drop, ... }))` without a
dependency list, so react-dnd builds the spec once, at the first render of the
drop zone, and keeps calling that `drop` callback. Its `onDrop` is the
`handleDropOnCalendar` of that render, closed over the state `first` of that
render; the state `current` at the time of the drop is not read. -/
def dropOnMountedCalendar (first _current : SchedulerState) (item : DragItem)
    (monitor : DropMonitor) (putOk : Bool) : List ApiRequest × List Toast :=
  let result := calendarDropZoneDrop (fun job => handleDropOnCalendar first job putOk) item monitor
  (result.requests, result.toasts)

/-! ## service-worker.js: background sync -/

/-- A call the `sync` handler can make on the worker's global scope. -/
inductive SyncCall where
  | consoleLog (msg : String)
  | indexedDBOpen (name : String)
  | fetched (request : Request)
  deriving DecidableEq, Repr

/-- The function `syncJobCompletions()`: the calls it makes before its promise
resolves. -/
def syncJobCompletions : List SyncCall :=
  [SyncCall.consoleLog "[SW] Syncing job completions"]

/-- The `sync` event listener: `some` of the calls made by the promise passed
to `event.waitUntil`, `none` when the tag is another one. -/
def syncListener (tag : String) : Option (List SyncCall) :=
  if tag = "sync-job-completions" then some syncJobCompletions else none

/-- Whether a call reads IndexedDB or sends a request. -/
def SyncCall.readsOrSends : SyncCall → Bool
  | SyncCall.consoleLog _ => false
  | SyncCall.indexedDBOpen _ => true
  | SyncCall.fetched _ => true

/-! ## PortalAccess.jsx

The component as a state machine: the state is the values of its `useState`
hooks, an event is a user action on one of its controls or the settling of a
request one of its handlers awaits, and `portalStep` applies the state setters
that run for it. Requests and toasts are not part of the state. -/

/-- The state `form`. -/
structure PortalForm where
  customer_id : String
  email : String
  contact_name : String
  deriving DecidableEq, Repr

/-- The object stored in `newAccessCode` after a create. -/
structure NewAccessCode where
  code : JsVal
  email : JsVal
  customer : JsVal
  deriving DecidableEq, Repr

/-- An entry of `GET /portal/access-list`: the properties the table reads, and
`access_code` for whatever the API may send under that name. -/
structure PortalAccessEntry where
  id : JsVal
  customer_name : JsVal
  contact_name : JsVal
  email : JsVal
  created_at : JsVal
  last_login : JsVal
  access_code : JsVal
  deriving DecidableEq, Repr

/-- The `useState` values of `PortalAccess`. -/
structure PortalState where
  accessList : List PortalAccessEntry
  customers : List Customer
  loading : Bool
  dialogOpen : Bool
  newAccessCode : Option NewAccessCode
  form : PortalForm
  deriving DecidableEq, Repr

/-- The state of the first render. -/
def portalInitial : PortalState :=
  ⟨[], [], true, false, none, ⟨"", "", ""⟩⟩

/-- What can happen to the mounted component. -/
inductive PortalEvent where
  /-- Both requests of `fetchData` resolved, with these data. -/
  | fetchDataResolved (accessList : List PortalAccessEntry) (customers : List Customer)
  /-- A request of `fetchData` rejected. -/
  | fetchDataRejected
  /-- The `api.post` of `handleSubmit` resolved; the arguments are
  `res.data.access_code`, `res.data.email` and `res.data.customer_name`. -/
  | submitResolved (access_code email customer_name : JsVal)
  /-- The `api.post` of `handleSubmit` rejected. -/
  | submitRejected
  /-- The handler `handleRevoke` ran, whatever the answer to the confirm box
  and to the request. -/
  | revokeRan
  /-- The function `copyToClipboard` ran. -/
  | copied
  /-- The dialog called `onOpenChange(open)`. -/
  | openChange (isOpen : Bool)
  /-- The Done button was clicked. -/
  | doneClicked
  /-- The Cancel button was clicked. -/
  | cancelClicked
  /-- A customer was picked in the select. -/
  | customerSelected (value : String)
  /-- The contact name input changed. -/
  | contactNameChanged (value : String)
  /-- The email input changed. -/
  | emailChanged (value : String)
  deriving DecidableEq, Repr

/-- Whether the event is a successful create. -/
def PortalEvent.isSubmitResolved : PortalEvent → Bool
  | PortalEvent.submitResolved _ _ _ => true
  | _ => false

/-- The function `resetForm`. -/
def resetForm : PortalForm :=
  ⟨"", "", ""⟩

/-- The state setters that run for one event. -/
def portalStep (s : PortalState) : PortalEvent → PortalState
  | PortalEvent.fetchDataResolved accessList customers =>
    ⟨accessList, customers, false, s.dialogOpen, s.newAccessCode, s.form⟩
  | PortalEvent.fetchDataRejected =>
    ⟨s.accessList, s.customers, false, s.dialogOpen, s.newAccessCode, s.form⟩
  | PortalEvent.submitResolved access_code email customer_name =>
    ⟨s.accessList, s.customers, s.loading, s.dialogOpen,
      some ⟨access_code, email, customer_name⟩, resetForm⟩
  | PortalEvent.submitRejected => s
  | PortalEvent.revokeRan => s
  | PortalEvent.copied => s
  | PortalEvent.openChange isOpen =>
    if isOpen then ⟨s.accessList, s.customers, s.loading, true, s.newAccessCode, s.form⟩
    else ⟨s.accessList, s.customers, s.loading, false, none, resetForm⟩
  | PortalEvent.doneClicked =>
    ⟨s.accessList, s.customers, s.loading, false, none, s.form⟩
  | PortalEvent.cancelClicked =>
    ⟨s.accessList, s.customers, s.loading, false, s.newAccessCode, s.form⟩
  | PortalEvent.customerSelected value =>
    ⟨s.accessList, s.customers, s.loading, s.dialogOpen, s.newAccessCode,
      ⟨value, s.form.email, s.form.contact_name⟩⟩
  | PortalEvent.contactNameChanged value =>
    ⟨s.accessList, s.customers, s.loading, s.dialogOpen, s.newAccessCode,
      ⟨s.form.customer_id, s.form.email, value⟩⟩
  | PortalEvent.emailChanged value =>
    ⟨s.accessList, s.customers, s.loading, s.dialogOpen, s.newAccessCode,
      ⟨s.form.customer_id, value, s.form.contact_name⟩⟩

/-- The state after a run of events. -/
def portalRun (s : PortalState) (events : List PortalEvent) : PortalState :=
  events.foldl portalStep s

/-- The text React renders for a scalar child: nothing for `undefined`, `null`
and booleans. -/
def JsVal.renderText : JsVal → String
  | JsVal.num n => toString n
  | JsVal.str s => s
  | _ => ""

/-- One rendered row of the access table: its key, its test ids and the texts
of its cells. -/
structure AccessRow where
  key : JsVal
  testid : String
  customer : String
  contact : String
  email : String
  created : String
  lastLogin : String
  revokeTestid : String
  deriving DecidableEq, Repr

/-- The expression `value.split("T")[0]` for a value that is a string; `none`
when `value.split` is not a function. -/
def datePart : JsVal → Option String
  | JsVal.str s => some ((jsSplit s 'T')[0]?.getD "")
  | _ => none

/-- The `map` callback that renders one entry of `accessList` as a table row;
`none` when it throws. -/
def accessRow (access : PortalAccessEntry) : Option AccessRow :=
  let created : Option String :=
    match access.created_at with
    | JsVal.undefined => some ""
    | JsVal.null => some ""
    | value => datePart value
  let lastLogin : Option String :=
    if access.last_login.truthy then datePart access.last_login else some "Never"
  match created, lastLogin with
  | some c, some l =>
    some ⟨access.id, "portal-access-row-" ++ access.id.toStr,
      access.customer_name.renderText, access.contact_name.renderText, access.email.renderText,
      c, l, "revoke-access-" ++ access.id.toStr⟩
  | _, _ => none

/-! ## Concrete inputs used below -/

/-- A job with a schedule but no engineer, in progress. -/
def jobScheduledNoEngineer : Job :=
  ⟨JsVal.num 7, JsVal.str "JOB-0007", JsVal.str "c1", JsVal.str "s1", JsVal.null,
    JsVal.str "2025-03-10", JsVal.str "14:30", JsVal.num 90, JsVal.str "in_progress",
    JsVal.str "high"⟩

/-- A job with a schedule and an engineer, in progress. -/
def jobFullyScheduled : Job :=
  ⟨JsVal.num 8, JsVal.str "JOB-0008", JsVal.str "c1", JsVal.str "s1", JsVal.str "e1",
    JsVal.str "2025-03-11", JsVal.str "10:00", JsVal.num 60, JsVal.str "in_progress",
    JsVal.str "low"⟩

/-- A scheduler whose calendar is focused on 9 March 2025 and already shows
`jobFullyScheduled`. -/
def schedulerAtMarch9 : SchedulerState :=
  ⟨0, ⟨2025, 3, 9⟩, "week", [jobFullyScheduled], []⟩

/-- The origin the example worker is served from. -/
def appOrigin : String := "https://app.example"

/-- A network that answers every request with status 200 and the path as
body. -/
def onlineEnv : WorkerEnv :=
  ⟨appOrigin, fun request => some ⟨200, [], request.url.pathname⟩⟩

/-- A network on which every fetch rejects. -/
def offlineEnv : WorkerEnv :=
  ⟨appOrigin, fun _ => none⟩

/-- A GET request to `pathname` on the worker's origin. -/
def getRequest (pathname mode : String) : Request :=
  ⟨"GET", ⟨appOrigin, pathname, ""⟩, mode⟩

/-- A cache storage with an older copy of `/api/customers` and of the main
script in the current cache, and a cache left over from an earlier version. -/
def staleCaches : CacheStorage :=
  [("craven-cooling-v0", [(⟨appOrigin, "/index.html", ""⟩, ⟨200, [], "v0 index"⟩)]),
    (CACHE_NAME,
      [(⟨appOrigin, "/api/customers", ""⟩, ⟨200, [], "stale customers"⟩),
        (⟨appOrigin, "/static/js/main.js", ""⟩, ⟨200, [], "old script"⟩)])]

/-- A pending job with neither schedule nor engineer. -/
def jobPending : Job :=
  ⟨JsVal.num 9, JsVal.str "JOB-0009", JsVal.str "c2", JsVal.str "s2", JsVal.null, JsVal.null,
    JsVal.null, JsVal.null, JsVal.str "pending", JsVal.str "medium"⟩

/-- A job of engineer `e1` at the same date and time as `jobFullyScheduled`. -/
def jobOverlapping : Job :=
  ⟨JsVal.num 10, JsVal.str "JOB-0010", JsVal.str "c2", JsVal.str "s2", JsVal.str "e1",
    JsVal.str "2025-03-11", JsVal.str "10:00", JsVal.num 120, JsVal.str "in_progress",
    JsVal.str "urgent"⟩

/-- Two customers. -/
def someCustomers : List Customer :=
  [⟨JsVal.str "c1", JsVal.str "Acme Foods"⟩, ⟨JsVal.str "c2", JsVal.str "Polar Storage"⟩]

/-- One engineer. -/
def someEngineers : List Engineer :=
  [⟨JsVal.str "e1", JsVal.str "Sam Field", JsVal.str "sam@example.com"⟩]

/-- An access-list entry that also holds an `access_code` property. -/
def entryWithCode : PortalAccessEntry :=
  ⟨JsVal.str "a1", JsVal.str "Acme Foods", JsVal.str "Pat Doe", JsVal.str "pat@acme.example",
    JsVal.str "2025-03-01T08:15:00Z", JsVal.null, JsVal.str "X7K2-9QLM"⟩

/-- A network that answers every request with a partial response, status
206. -/
def partialEnv : WorkerEnv :=
  ⟨appOrigin, fun request =>
    some ⟨206, [("Content-Range", "bytes 0-1023/4096")], request.url.pathname⟩⟩

/-! ## Scheduler.jsx: theorems -/

/-- C1: every drop issues the request `PUT /jobs/{job.id}`, and the requests of
two runs that differ only in the scheduled jobs (and in how the request later
settles) are the same. -/
theorem handleDropOnCalendar_unconditional (s : SchedulerState) (job : Job)
    (scheduled : List Job) (putOk putOk2 : Bool) :
    (handleDropOnCalendar s job putOk).requests
      = [⟨"PUT", "/jobs/" ++ job.id.toStr,
          [("scheduled_date", JsVal.str (formatYMD s.date)),
            ("scheduled_time", JsVal.str "09:00")]⟩] ∧
    (handleDropOnCalendar ⟨s.refreshTrigger, s.date, s.view, scheduled, s.unscheduledJobs⟩
        job putOk2).requests = (handleDropOnCalendar s job putOk).requests := by
  cases putOk <;> cases putOk2 <;> simp [handleDropOnCalendar]

/-- C2, as stated, fails: the body sent for a drop of `jobScheduledNoEngineer`
does not have exactly one field. -/
theorem handleDropOnCalendar_body_not_one_field :
    ¬ (∀ r ∈ (handleDropOnCalendar schedulerAtMarch9 jobScheduledNoEngineer true).requests,
        r.body.length = 1) := by
  decide

/-- C2, amended: every drop sends one request whose body has exactly the two
fields `scheduled_date` and `scheduled_time`, in that order. -/
theorem handleDropOnCalendar_body_two_fields (s : SchedulerState) (job : Job) (putOk : Bool) :
    (handleDropOnCalendar s job putOk).requests.map (fun r => r.body.map Prod.fst)
      = [["scheduled_date", "scheduled_time"]] := by
  cases putOk <;> simp [handleDropOnCalendar]

/-- C3, as stated, fails: `jobScheduledNoEngineer` has a `scheduled_date` and
is placed in the parking lot. -/
theorem useUnscheduledJobs_keeps_scheduled_job :
    ¬ (∀ job ∈ (useUnscheduledJobs [] (some [jobScheduledNoEngineer, jobFullyScheduled])).1,
        job.scheduled_date.truthy = false) := by
  decide

/-- C3, amended: every job that a successful `GET /jobs` puts in the parking lot
has no `scheduled_date`, or no `assigned_engineer_id`, or the status
`pending`. -/
theorem useUnscheduledJobs_lot_members (prev data : List Job) (job : Job)
    (hmem : job ∈ (useUnscheduledJobs prev (some data)).1) :
    job.scheduled_date.truthy = false ∨ job.assigned_engineer_id.truthy = false
      ∨ job.status = JsVal.str "pending" := by
  simp only [useUnscheduledJobs, List.mem_filter, isUnscheduled, Bool.or_eq_true,
    Bool.not_eq_true', decide_eq_true_eq] at hmem
  rcases hmem.2 with (h | h) | h
  · exact Or.inl h
  · exact Or.inr (Or.inl h)
  · exact Or.inr (Or.inr h)

/-- Witness of C3 (amended) on a lot built from two jobs. -/
theorem useUnscheduledJobs_lot_members_witness :
    jobScheduledNoEngineer ∈
        (useUnscheduledJobs [] (some [jobScheduledNoEngineer, jobFullyScheduled])).1 ∧
      (jobScheduledNoEngineer.scheduled_date.truthy = false
        ∨ jobScheduledNoEngineer.assigned_engineer_id.truthy = false
        ∨ jobScheduledNoEngineer.status = JsVal.str "pending") :=
  ⟨by decide,
    useUnscheduledJobs_lot_members [] [jobScheduledNoEngineer, jobFullyScheduled]
      jobScheduledNoEngineer (by decide)⟩

/-! ## service-worker.js: theorems -/

/-- The function `includes` holds exactly when the second string occurs as a
contiguous run of the first. -/
theorem includes_iff_infix (s sub : String) : includes s sub = true ↔ sub.data <:+: s.data := by
  unfold includes
  generalize s.data = l
  induction l with
  | nil => simp [includesChars, List.isEmpty_iff]
  | cons c cs ih => simp [includesChars, List.infix_cons_iff, ih]

/-- A call of `cache.put` reads no cache. -/
theorem putEffect_isCacheRead (name : String) (request : Request) (response : Response) :
    (putEffect name request response).isCacheRead = false := by
  unfold putEffect
  split <;> rfl

/-- A call of `cache.put` writes exactly when the Cache API accepts it. -/
theorem putEffect_isCacheWrite (name : String) (request : Request) (response : Response) :
    (putEffect name request response).isCacheWrite = cachePutAccepts request response := by
  unfold putEffect
  cases h : cachePutAccepts request response <;> simp [Effect.isCacheWrite]

/-- The trace entry of a call of `cache.put` is a call of `cache.put`. -/
theorem putEffect_isPutCall (name : String) (request : Request) (response : Response) :
    (putEffect name request response).isPutCall = true := by
  unfold putEffect
  split <;> rfl

/-- A GET request has a match in the storage exactly when some cache holds an
entry of its URL. -/
theorem cachesMatch_isSome_iff (cs : CacheStorage) (request : Request)
    (hget : request.method = "GET") :
    (cachesMatch cs request).isSome = true ↔ ∃ nc ∈ cs, ∃ e ∈ nc.2, e.1 = request.url := by
  simp [cachesMatch, List.findSome?_isSome_iff, cacheMatch, hget]

/-- The function `cachePut` does not change the keys of the storage. -/
theorem cachesKeys_cachePut (cs : CacheStorage) (name : String) (rq : Request) (rsp : Response) :
    cachesKeys (cachePut cs name rq rsp) = cachesKeys cs := by
  simp only [cachesKeys, cachePut, List.map_map]
  apply List.map_congr_left
  intro nc _
  by_cases h : nc.1 = name <;> simp [h]

/-- After a put into an existing cache the request put has a match. -/
theorem cachesMatch_cachePut_self (cs : CacheStorage) (name : String) (rq : Request)
    (rsp : Response) (hname : name ∈ cachesKeys cs) (hget : rq.method = "GET") :
    (cachesMatch (cachePut cs name rq rsp) rq).isSome = true := by
  rw [cachesMatch_isSome_iff _ _ hget]
  simp only [cachesKeys, List.mem_map] at hname
  obtain ⟨nc, hnc, rfl⟩ := hname
  refine ⟨(nc.1, cachePutEntry nc.2 rq rsp), ?_, (rq.url, rsp), ?_, rfl⟩
  · simp only [cachePut, List.mem_map]
    exact ⟨nc, hnc, by simp⟩
  · simp [cachePutEntry]

/-- A put keeps every match there was. -/
theorem cachesMatch_cachePut_mono (cs : CacheStorage) (name : String) (rq : Request)
    (rsp : Response) (request : Request) (hget : request.method = "GET")
    (h : (cachesMatch cs request).isSome = true) :
    (cachesMatch (cachePut cs name rq rsp) request).isSome = true := by
  rw [cachesMatch_isSome_iff _ _ hget] at h ⊢
  obtain ⟨nc, hnc, e, he, hurl⟩ := h
  by_cases hn : nc.1 = name
  · refine ⟨(nc.1, cachePutEntry nc.2 rq rsp), ?_, ?_⟩
    · simp only [cachePut, List.mem_map]
      exact ⟨nc, hnc, by simp [hn]⟩
    · by_cases hu : e.1 = rq.url
      · exact ⟨(rq.url, rsp), by simp [cachePutEntry], by rw [← hu, hurl]⟩
      · exact ⟨e, by simp [cachePutEntry, he, hu], hurl⟩
  · refine ⟨nc, ?_, e, he, hurl⟩
    simp only [cachePut, List.mem_map]
    exact ⟨nc, hnc, by simp [hn]⟩

/-- After a run of puts into an existing cache, every request put has a
match, and so has every request that had one before. -/
theorem cachesMatch_foldl_cachePut (name : String) (request : Request)
    (hget : request.method = "GET") (entries : List (Request × Response)) (acc : CacheStorage)
    (hname : name ∈ cachesKeys acc)
    (h : (∃ e ∈ entries, e.1 = request) ∨ (cachesMatch acc request).isSome = true) :
    (cachesMatch (entries.foldl (fun acc e => cachePut acc name e.1 e.2) acc) request).isSome
      = true := by
  induction entries generalizing acc with
  | nil =>
    rcases h with ⟨e, he, _⟩ | h
    · cases he
    · exact h
  | cons e es ih =>
    simp only [List.foldl_cons]
    apply ih
    · rw [cachesKeys_cachePut]
      exact hname
    · rcases h with ⟨e0, he0, heq⟩ | h
      · rcases List.mem_cons.mp he0 with rfl | hes
        · right
          rw [← heq]
          exact cachesMatch_cachePut_self acc name e0.1 e0.2 hname (by rw [heq]; exact hget)
        · exact Or.inl ⟨e0, hes, heq⟩
      · exact Or.inr (cachesMatch_cachePut_mono acc name e.1 e.2 request hget h)

/-- When `cache.addAll` succeeds, every path given has its request among the
entries to store. -/
theorem addAllFetch_covers (env : WorkerEnv) (paths : List String)
    (entries : List (Request × Response)) (h : addAllFetch env paths = some entries)
    (path : String) (hpath : path ∈ paths) :
    ∃ e ∈ entries, e.1 = Request.ofPath env.origin path := by
  induction paths generalizing entries with
  | nil => cases hpath
  | cons p ps ih =>
    simp only [addAllFetch, List.mapM_cons, Option.pure_def, Option.bind_eq_bind,
      Option.bind_eq_some] at h
    obtain ⟨e, he, es, hes, hent⟩ := h
    cases Option.some.inj hent
    rcases List.mem_cons.mp hpath with rfl | hps
    · refine ⟨e, List.mem_cons_self _ _, ?_⟩
      cases hf : env.fetch (Request.ofPath env.origin path) with
      | none => simp [hf] at he
      | some response =>
        simp only [hf] at he
        split at he
        · cases Option.some.inj he
          rfl
        · cases he
    · obtain ⟨e0, he0, heq⟩ := ih es hes hps
      exact ⟨e0, List.mem_cons_of_mem _ he0, heq⟩

/-- The cache `CACHE_NAME` exists once it has been opened. -/
theorem mem_cachesKeys_cachesOpen (cs : CacheStorage) (name : String) :
    name ∈ cachesKeys (cachesOpen cs name) := by
  unfold cachesOpen
  split
  · assumption
  · simp [cachesKeys]

/-- A put under another URL does not change what a request matches in one
cache. -/
theorem cacheMatch_cachePutEntry_ne (c : Cache) (rq : Request) (rsp : Response)
    (request : Request) (hne : rq.url ≠ request.url) :
    cacheMatch (cachePutEntry c rq rsp) request = cacheMatch c request := by
  unfold cacheMatch cachePutEntry
  split
  · congr 1
    have hlast : List.find? (fun e => decide (e.1 = request.url)) [(rq.url, rsp)] = none := by
      simp [hne]
    rw [List.find?_append, hlast, Option.or_none]
    induction c with
    | nil => rfl
    | cons e es ih =>
      by_cases h1 : e.1 = request.url
      · have h2 : e.1 ≠ rq.url := fun h => hne (h ▸ h1)
        rw [List.filter_cons_of_pos (by simpa using h2),
          List.find?_cons_of_pos _ (by simpa using h1),
          List.find?_cons_of_pos _ (by simpa using h1)]
      · by_cases h2 : e.1 = rq.url
        · rw [List.filter_cons_of_neg (by simpa using h2),
            List.find?_cons_of_neg _ (by simpa using h1)]
          exact ih
        · rw [List.filter_cons_of_pos (by simpa using h2),
            List.find?_cons_of_neg _ (by simpa using h1),
            List.find?_cons_of_neg _ (by simpa using h1)]
          exact ih
  · rfl

/-- A put under another URL does not change what a request matches in the
storage. -/
theorem cachesMatch_cachePut_ne (cs : CacheStorage) (name : String) (rq : Request)
    (rsp : Response) (request : Request) (hne : rq.url ≠ request.url) :
    cachesMatch (cachePut cs name rq rsp) request = cachesMatch cs request := by
  unfold cachesMatch cachePut
  induction cs with
  | nil => rfl
  | cons nc rest ih =>
    simp only [List.map_cons, List.findSome?_cons]
    rw [ih]
    by_cases hn : nc.1 = name
    · simp [hn, cacheMatch_cachePutEntry_ne _ _ _ _ hne]
    · simp [hn]

/-- Opening a cache does not change what a request matches. -/
theorem cachesMatch_cachesOpen (cs : CacheStorage) (name : String) (request : Request) :
    cachesMatch (cachesOpen cs name) request = cachesMatch cs request := by
  unfold cachesOpen
  split
  · rfl
  · simp [cachesMatch, List.findSome?_append, cacheMatch]

/-- One `fetch` event leaves the match of a static GET request that has one as
it was. -/
theorem cachesMatch_fetchListener (env : WorkerEnv) (cs : CacheStorage) (event request : Request)
    (cached : Response) (hget : request.method = "GET")
    (hstatic : startsWith request.url.pathname "/api/" = false)
    (hhit : cachesMatch cs request = some cached) :
    cachesMatch (fetchListener env cs event).caches request = some cached := by
  have hput : ∀ rsp, event.url ≠ request.url →
      cachesMatch (openAndPut cs CACHE_NAME event rsp) request = some cached := by
    intro rsp hne
    unfold openAndPut
    split
    · rw [cachesMatch_cachePut_ne _ _ _ _ _ hne, cachesMatch_cachesOpen, hhit]
    · rw [cachesMatch_cachesOpen, hhit]
  unfold fetchListener
  split
  · exact hhit
  · rename_i hm
    have hm : event.method = "GET" := by simpa using hm
    split
    · rename_i hapi
      have hne : event.url ≠ request.url := by
        intro h
        rw [h, hstatic] at hapi
        cases hapi
      unfold handleAPIRequest
      cases env.fetch event with
      | none =>
        simp only []
        split <;> exact hhit
      | some rsp =>
        simp only []
        split
        · exact hput rsp hne
        · exact hhit
    · cases hmatch : cachesMatch cs event with
      | some c => exact hhit
      | none =>
        have hne : event.url ≠ request.url := by
          intro h
          have : cachesMatch cs event = cachesMatch cs request := by
            simp [cachesMatch, cacheMatch, hm, hget, h]
          rw [hmatch, hhit] at this
          cases this
        cases env.fetch event with
        | none =>
          simp only []
          split <;> exact hhit
        | some rsp =>
          simp only []
          split
          · exact hput rsp hne
          · exact hhit

/-- A run of `fetch` events leaves the match of a static GET request that has
one as it was. -/
theorem cachesMatch_fetchEvents (events : List (WorkerEnv × Request)) (cs : CacheStorage)
    (request : Request) (cached : Response) (hget : request.method = "GET")
    (hstatic : startsWith request.url.pathname "/api/" = false)
    (hhit : cachesMatch cs request = some cached) :
    cachesMatch (fetchEvents cs events) request = some cached := by
  induction events generalizing cs with
  | nil => exact hhit
  | cons event rest ih =>
    exact ih _ (cachesMatch_fetchListener event.1 cs event.2 request cached hget hstatic hhit)

/-- Deleting a list of names one after the other keeps exactly the caches whose
name is not in the list. -/
theorem foldl_cachesDelete (names : List String) (cs : CacheStorage) :
    names.foldl cachesDelete cs = cs.filter (fun nc => decide (nc.1 ∉ names)) := by
  induction names generalizing cs with
  | nil => simp
  | cons n ns ih =>
    simp only [List.foldl_cons, ih, cachesDelete, List.filter_filter]
    congr 1
    funext nc
    by_cases h1 : nc.1 = n <;> by_cases h2 : nc.1 ∈ ns <;> simp [h1, h2]

/-- The storage that `activate` leaves: the caches called `CACHE_NAME`. -/
theorem activate_caches (cs : CacheStorage) :
    (activate cs).caches = cs.filter (fun nc => decide (nc.1 = CACHE_NAME)) := by
  simp only [activate, foldl_cachesDelete]
  apply List.filter_congr
  intro nc hnc
  have hkey : nc.1 ∈ cachesKeys cs := List.mem_map_of_mem Prod.fst hnc
  by_cases h : nc.1 = CACHE_NAME <;> simp [List.mem_filter, h, hkey]

/-- C4: for a GET request under `/api/` the listener responds through
`handleAPIRequest`; when the fetch resolves the result is exactly the network
response, for every cache content, and no cache is read; a cache read implies
that the fetch was rejected. -/
theorem handleAPIRequest_network_first (env : WorkerEnv) (cs : CacheStorage) (request : Request)
    (hget : request.method = "GET") (hapi : startsWith request.url.pathname "/api/" = true) :
    (fetchListener env cs request).responded = true ∧
    (fetchListener env cs request).response = (handleAPIRequest env cs request).response ∧
    (fetchListener env cs request).trace = (handleAPIRequest env cs request).trace ∧
    (∀ response, env.fetch request = some response →
      (handleAPIRequest env cs request).response = some response ∧
      (handleAPIRequest env cs request).trace.any Effect.isCacheRead = false) ∧
    ((handleAPIRequest env cs request).trace.any Effect.isCacheRead = true →
      env.fetch request = none) := by
  refine ⟨?_, ?_, ?_, ?_, ?_⟩
  · simp [fetchListener, hget, hapi]
  · simp [fetchListener, hget, hapi]
  · simp [fetchListener, hget, hapi]
  · intro response hnet
    unfold handleAPIRequest
    simp only [hnet]
    split
    · refine ⟨rfl, ?_⟩
      simp only [List.any_cons, List.any_nil, putEffect_isCacheRead]
      simp [Effect.isCacheRead]
    · simp [Effect.isCacheRead]
  · intro hread
    cases hnet : env.fetch request with
    | none => rfl
    | some response =>
      exfalso
      unfold handleAPIRequest at hread
      simp only [hnet] at hread
      split at hread
      · simp only [List.any_cons, List.any_nil, putEffect_isCacheRead] at hread
        simp [Effect.isCacheRead] at hread
      · simp [Effect.isCacheRead] at hread

/-- Witness of C4: the network answer for `/api/customers` wins over the stale
copy in the cache. -/
theorem handleAPIRequest_network_first_witness :
    (getRequest "/api/customers" "cors").method = "GET" ∧
    startsWith (getRequest "/api/customers" "cors").url.pathname "/api/" = true ∧
    cachesMatch staleCaches (getRequest "/api/customers" "cors")
      = some ⟨200, [], "stale customers"⟩ ∧
    (handleAPIRequest onlineEnv staleCaches (getRequest "/api/customers" "cors")).response
      = some ⟨200, [], "/api/customers"⟩ :=
  ⟨by decide, by decide, by decide,
    ((handleAPIRequest_network_first onlineEnv staleCaches (getRequest "/api/customers" "cors")
      (by decide) (by decide)).2.2.2.1 ⟨200, [], "/api/customers"⟩ rfl).1⟩

/-- C5: when the fetch of an API GET request is rejected, `handleAPIRequest`
still resolves with a response: the cached one when `caches.match` finds one,
and otherwise status 503, `Content-Type: application/json` and the body
`{"error":"Offline","cached":false}`. -/
theorem handleAPIRequest_offline (env : WorkerEnv) (cs : CacheStorage) (request : Request)
    (hget : request.method = "GET") (hapi : startsWith request.url.pathname "/api/" = true)
    (hoff : env.fetch request = none) :
    (fetchListener env cs request).response = (handleAPIRequest env cs request).response ∧
    (∀ cached, cachesMatch cs request = some cached →
      (handleAPIRequest env cs request).response = some cached) ∧
    (cachesMatch cs request = none →
      (handleAPIRequest env cs request).response
        = some ⟨503, [("Content-Type", "application/json")],
            "\x7b\"error\":\"Offline\",\"cached\":false\x7d"⟩) := by
  refine ⟨?_, ?_, ?_⟩
  · simp [fetchListener, hget, hapi]
  · intro cached hhit
    simp [handleAPIRequest, hoff, hhit]
  · intro hmiss
    have hbody : offlineJsonBody = "\x7b\"error\":\"Offline\",\"cached\":false\x7d" := by decide
    simp [handleAPIRequest, hoff, hmiss, hbody]

/-- Witness of C5: offline, `/api/customers` comes from the cache and
`/api/sites`, which is not cached, gets the 503 answer. -/
theorem handleAPIRequest_offline_witness :
    (getRequest "/api/sites" "cors").method = "GET" ∧
    startsWith (getRequest "/api/sites" "cors").url.pathname "/api/" = true ∧
    offlineEnv.fetch (getRequest "/api/sites" "cors") = none ∧
    cachesMatch staleCaches (getRequest "/api/sites" "cors") = none ∧
    (handleAPIRequest offlineEnv staleCaches (getRequest "/api/sites" "cors")).response
      = some ⟨503, [("Content-Type", "application/json")],
          "\x7b\"error\":\"Offline\",\"cached\":false\x7d"⟩ :=
  ⟨by decide, by decide, rfl, by decide,
    (handleAPIRequest_offline offlineEnv staleCaches (getRequest "/api/sites" "cors")
      (by decide) (by decide) rfl).2.2 (by decide)⟩

/-- C6, as stated, fails in its last part: the main script has a cached copy,
and an install, which leaves the names of the caches as they are, fetches
`PRECACHE_URLS` again and replaces that copy. -/
theorem install_refreshes_cached_static :
    ¬ ((getRequest "/static/js/main.js" "no-cors").method = "GET" ∧
        startsWith (getRequest "/static/js/main.js" "no-cors").url.pathname "/api/" = false ∧
        cachesMatch staleCaches (getRequest "/static/js/main.js" "no-cors")
          = some ⟨200, [], "old script"⟩ ∧
        cachesKeys (install onlineEnv staleCaches).caches = cachesKeys staleCaches →
      cachesMatch (install onlineEnv staleCaches).caches
          (getRequest "/static/js/main.js" "no-cors")
        = some ⟨200, [], "old script"⟩) := by
  decide

/-- C6, amended: a GET request outside `/api/` with a cached match is answered
with that cached response, with `caches.match` as the only browser call (no
fetch, no write), and the cache storage, hence the entry, is left as it was;
and whatever `fetch` events the listener handles afterwards, the request keeps
matching that same response: the fetch handler never refreshes it. -/
theorem fetchListener_static_hit (env : WorkerEnv) (cs : CacheStorage) (request : Request)
    (cached : Response) (hget : request.method = "GET")
    (hstatic : startsWith request.url.pathname "/api/" = false)
    (hhit : cachesMatch cs request = some cached) :
    (fetchListener env cs request).responded = true ∧
    (fetchListener env cs request).response = some cached ∧
    (fetchListener env cs request).trace = [Effect.matched request] ∧
    (fetchListener env cs request).trace.any Effect.isFetch = false ∧
    (fetchListener env cs request).trace.any Effect.isCacheWrite = false ∧
    (fetchListener env cs request).caches = cs ∧
    (∀ later : List (WorkerEnv × Request),
      cachesMatch (fetchEvents (fetchListener env cs request).caches later) request
        = some cached) := by
  have h : fetchListener env cs request = ⟨true, some cached, cs, [Effect.matched request]⟩ := by
    simp [fetchListener, hget, hstatic, hhit]
  rw [h]
  refine ⟨rfl, rfl, rfl, ?_, ?_, rfl, ?_⟩
  · simp [Effect.isFetch]
  · simp [Effect.isCacheWrite]
  · intro later
    exact cachesMatch_fetchEvents later cs request cached hget hstatic hhit

/-- Witness of C6 (amended): online, the main script is still served from its old cached
copy. -/
theorem fetchListener_static_hit_witness :
    (getRequest "/static/js/main.js" "no-cors").method = "GET" ∧
    startsWith (getRequest "/static/js/main.js" "no-cors").url.pathname "/api/" = false ∧
    cachesMatch staleCaches (getRequest "/static/js/main.js" "no-cors")
      = some ⟨200, [], "old script"⟩ ∧
    (fetchListener onlineEnv staleCaches (getRequest "/static/js/main.js" "no-cors")).response
      = some ⟨200, [], "old script"⟩ ∧
    (fetchListener onlineEnv staleCaches (getRequest "/static/js/main.js" "no-cors")).caches
      = staleCaches ∧
    cachesMatch
        (fetchEvents
          (fetchListener onlineEnv staleCaches (getRequest "/static/js/main.js" "no-cors")).caches
          [(onlineEnv, getRequest "/static/css/main.css" "no-cors"),
            (onlineEnv, getRequest "/static/js/main.js" "no-cors")])
        (getRequest "/static/js/main.js" "no-cors")
      = some ⟨200, [], "old script"⟩ :=
  ⟨by decide, by decide, by decide,
    (fetchListener_static_hit onlineEnv staleCaches (getRequest "/static/js/main.js" "no-cors")
      ⟨200, [], "old script"⟩ (by decide) (by decide) (by decide)).2.1,
    (fetchListener_static_hit onlineEnv staleCaches (getRequest "/static/js/main.js" "no-cors")
      ⟨200, [], "old script"⟩ (by decide) (by decide) (by decide)).2.2.2.2.2.1,
    (fetchListener_static_hit onlineEnv staleCaches (getRequest "/static/js/main.js" "no-cors")
      ⟨200, [], "old script"⟩ (by decide) (by decide) (by decide)).2.2.2.2.2.2 _⟩

/-- C7: a GET request outside `/api/` with no cached match whose fetch is
rejected is answered, in mode `navigate`, with the result of
`caches.match(OFFLINE_URL)`, and in every other mode with a response of status
503 and body `Offline`; `OFFLINE_URL` is one of `PRECACHE_URLS`, and after every
successful install `caches.match(OFFLINE_URL)` is a defined response. -/
theorem fetchListener_static_offline (env : WorkerEnv) (cs : CacheStorage) (request : Request)
    (hget : request.method = "GET") (hstatic : startsWith request.url.pathname "/api/" = false)
    (hmiss : cachesMatch cs request = none) (hoff : env.fetch request = none) :
    (fetchListener env cs request).responded = true ∧
    (request.mode = "navigate" →
      (fetchListener env cs request).response
        = cachesMatch cs (Request.ofPath env.origin OFFLINE_URL)) ∧
    (request.mode ≠ "navigate" →
      (fetchListener env cs request).response = some ⟨503, [], "Offline"⟩) ∧
    OFFLINE_URL ∈ PRECACHE_URLS ∧
    (∀ (net : WorkerEnv) (before : CacheStorage), (install net before).ok = true →
      (cachesMatch (install net before).caches (Request.ofPath net.origin OFFLINE_URL)).isSome
        = true) := by
  refine ⟨?_, ?_, ?_, by decide, ?_⟩
  · by_cases hm : request.mode = "navigate" <;>
      simp [fetchListener, hget, hstatic, hmiss, hoff, hm]
  · intro hm
    simp [fetchListener, hget, hstatic, hmiss, hoff, hm]
  · intro hm
    simp [fetchListener, hget, hstatic, hmiss, hoff, hm]
  · intro net before hok
    unfold install at hok ⊢
    cases hall : addAllFetch net PRECACHE_URLS with
    | none => simp [hall] at hok
    | some entries =>
      simp only []
      apply cachesMatch_foldl_cachePut CACHE_NAME _ rfl entries _
        (mem_cachesKeys_cachesOpen before CACHE_NAME)
      exact Or.inl (addAllFetch_covers net PRECACHE_URLS entries hall OFFLINE_URL (by decide))

/-- Witness of C7: offline after an install, a navigation to `/dashboard` gets
the precached offline page and a script request gets the 503 answer. -/
theorem fetchListener_static_offline_witness :
    (getRequest "/dashboard" "navigate").method = "GET" ∧
    startsWith (getRequest "/dashboard" "navigate").url.pathname "/api/" = false ∧
    cachesMatch (install onlineEnv []).caches (getRequest "/dashboard" "navigate") = none ∧
    offlineEnv.fetch (getRequest "/dashboard" "navigate") = none ∧
    (fetchListener offlineEnv (install onlineEnv []).caches
        (getRequest "/dashboard" "navigate")).response = some ⟨200, [], "/offline.html"⟩ :=
  ⟨by decide, by decide, by decide, rfl,
    ((fetchListener_static_offline offlineEnv (install onlineEnv []).caches
      (getRequest "/dashboard" "navigate") (by decide) (by decide) (by decide) rfl).2.1
        (by decide)).trans (by decide)⟩

/-- C8: `activate` passes to `caches.delete` every existing name other than
`CACHE_NAME`, and never `CACHE_NAME`; afterwards none of the deleted names is a
key, the cache called `CACHE_NAME` is kept with its content, and a second run
on the result deletes nothing and changes nothing. -/
theorem activate_cleans_old_caches (cs : CacheStorage) :
    (∀ name, name ∈ cachesKeys cs → name ≠ CACHE_NAME →
      name ∈ (activate cs).deleted ∧ name ∉ cachesKeys (activate cs).caches) ∧
    CACHE_NAME ∉ (activate cs).deleted ∧
    (∀ cache, (CACHE_NAME, cache) ∈ cs → (CACHE_NAME, cache) ∈ (activate cs).caches) ∧
    (activate (activate cs).caches).deleted = [] ∧
    (activate (activate cs).caches).caches = (activate cs).caches := by
  have hdel : ∀ cs0 : CacheStorage, (activate cs0).deleted
      = (cachesKeys cs0).filter (fun name => decide (name ≠ CACHE_NAME)) := fun _ => rfl
  have hnone : (activate (activate cs).caches).deleted = [] := by
    rw [hdel, activate_caches, List.filter_eq_nil_iff]
    intro name hname
    simp only [cachesKeys, List.mem_map, List.mem_filter, decide_eq_true_eq] at hname
    obtain ⟨nc, ⟨_, hnc⟩, rfl⟩ := hname
    simp [hnc]
  refine ⟨?_, ?_, ?_, hnone, ?_⟩
  · intro name hname hne
    constructor
    · rw [hdel]
      simp [List.mem_filter, hname, hne]
    · rw [activate_caches]
      simp only [cachesKeys, List.mem_map, List.mem_filter, decide_eq_true_eq, not_exists, not_and]
      rintro nc ⟨_, hnc⟩ rfl
      exact hne hnc
  · rw [hdel]
    simp [List.mem_filter]
  · intro cache hmem
    rw [activate_caches]
    simp [List.mem_filter, hmem]
  · have h2 := hnone
    simp only [activate] at h2 ⊢
    rw [h2]
    rfl

/-- Witness of C8: the cache of version 0 is deleted and the current one is
kept. -/
theorem activate_cleans_old_caches_witness :
    "craven-cooling-v0" ∈ cachesKeys staleCaches ∧ "craven-cooling-v0" ≠ CACHE_NAME ∧
    "craven-cooling-v0" ∈ (activate staleCaches).deleted ∧
    "craven-cooling-v0" ∉ cachesKeys (activate staleCaches).caches :=
  ⟨by decide, by decide,
    ((activate_cleans_old_caches staleCaches).1 "craven-cooling-v0" (by decide) (by decide)).1,
    ((activate_cleans_old_caches staleCaches).1 "craven-cooling-v0" (by decide) (by decide)).2⟩

/-- C9: for a request whose method is not GET the listener returns before
`event.respondWith`: no response, no browser call (so no fetch and no cache
read or write), and the cache storage is unchanged. -/
theorem fetchListener_skips_non_get (env : WorkerEnv) (cs : CacheStorage) (request : Request)
    (hmethod : request.method ≠ "GET") :
    (fetchListener env cs request).responded = false ∧
    (fetchListener env cs request).response = none ∧
    (fetchListener env cs request).trace = [] ∧
    (fetchListener env cs request).caches = cs := by
  simp [fetchListener, hmethod]

/-- Witness of C9: a POST to `/api/customers`. -/
theorem fetchListener_skips_non_get_witness :
    (⟨"POST", ⟨appOrigin, "/api/customers", ""⟩, "cors"⟩ : Request).method ≠ "GET" ∧
    (fetchListener onlineEnv staleCaches ⟨"POST", ⟨appOrigin, "/api/customers", ""⟩, "cors"⟩).responded
      = false ∧
    (fetchListener onlineEnv staleCaches ⟨"POST", ⟨appOrigin, "/api/customers", ""⟩, "cors"⟩).trace
      = [] :=
  ⟨by decide,
    (fetchListener_skips_non_get onlineEnv staleCaches
      ⟨"POST", ⟨appOrigin, "/api/customers", ""⟩, "cors"⟩ (by decide)).1,
    (fetchListener_skips_non_get onlineEnv staleCaches
      ⟨"POST", ⟨appOrigin, "/api/customers", ""⟩, "cors"⟩ (by decide)).2.2.1⟩

/-- What `handleAPIRequest` does, by cases: either the fetch resolved with an
ok response on a path that contains a listed route, and `cache.put` is called
once; or no `cache.put` is called and the storage is left as it was. -/
theorem handleAPIRequest_cases (env : WorkerEnv) (cs : CacheStorage) (request : Request) :
    (∃ response, env.fetch request = some response ∧ response.ok = true ∧
      API_CACHE_ROUTES.any (fun route => includes request.url.pathname route) = true ∧
      handleAPIRequest env cs request
        = ⟨some response, openAndPut cs CACHE_NAME request response,
            [Effect.fetched request, Effect.opened CACHE_NAME,
              putEffect CACHE_NAME request response]⟩) ∨
    ((¬ ∃ response, env.fetch request = some response ∧ response.ok = true ∧
        API_CACHE_ROUTES.any (fun route => includes request.url.pathname route) = true) ∧
      (handleAPIRequest env cs request).caches = cs ∧
      (handleAPIRequest env cs request).trace.any Effect.isPutCall = false ∧
      (handleAPIRequest env cs request).trace.any Effect.isCacheWrite = false) := by
  unfold handleAPIRequest
  cases hnet : env.fetch request with
  | none =>
    right
    simp only []
    split <;> simp [Effect.isPutCall, Effect.isCacheWrite]
  | some response =>
    simp only []
    split
    · rename_i hc
      simp only [Bool.and_eq_true] at hc
      exact Or.inl ⟨response, rfl, hc.1, hc.2, rfl⟩
    · rename_i hc
      simp only [Bool.and_eq_true, not_and] at hc
      right
      refine ⟨?_, rfl, by simp [Effect.isPutCall], by simp [Effect.isCacheWrite]⟩
      rintro ⟨r, hr, hok, hroute⟩
      cases Option.some.inj hr
      exact hc hok hroute

/-- The storage after `caches.open(name).then((cache) => cache.put(...))` when
`cache.put` rejects: every request matches what it matched before. -/
theorem cachesMatch_openAndPut_rejected (cs : CacheStorage) (name : String) (rq : Request)
    (rsp : Response) (hrej : cachePutAccepts rq rsp = false) (request : Request) :
    cachesMatch (openAndPut cs name rq rsp) request = cachesMatch cs request := by
  simp [openAndPut, hrej, cachesMatch_cachesOpen]

/-- C10, as stated, fails twice. Its last part: `/api/customers-export` is
neither a listed route nor a path below one (`route/...`), and its ok response
is written to the cache. Its "if": the response of status 206 to
`/api/assets/manual.pdf` is ok and the path contains a listed route, and it is
not written, because `cache.put` rejects a 206 response. -/
theorem handleAPIRequest_write_claim_fails :
    ¬ ((∀ route ∈ API_CACHE_ROUTES,
          (getRequest "/api/customers-export" "cors").url.pathname ≠ route ∧
          startsWith (getRequest "/api/customers-export" "cors").url.pathname (route ++ "/")
            = false) →
      (handleAPIRequest onlineEnv [] (getRequest "/api/customers-export" "cors")).trace.any
        Effect.isCacheWrite = false) ∧
    ¬ ((handleAPIRequest partialEnv [] (getRequest "/api/assets/manual.pdf" "cors")).trace.any
          Effect.isCacheWrite = true ↔
        ∃ response, partialEnv.fetch (getRequest "/api/assets/manual.pdf" "cors") = some response ∧
          response.ok = true ∧
          API_CACHE_ROUTES.any
            (fun route => includes (getRequest "/api/assets/manual.pdf" "cors").url.pathname route)
            = true) :=
  ⟨by decide,
    fun h => absurd (h.mpr ⟨_, rfl, by decide, by decide⟩) (by decide)⟩

/-- C10, amended: `handleAPIRequest` calls `cache.put` if and only if the fetch
resolved, `response.ok` is true and the path contains one of the five
`API_CACHE_ROUTES` as a substring; the response is written to the cache if and
only if, in addition, `cache.put` accepts it (http(s) GET request, status other
than 206, no `Vary: *`), and then it is put under that request into the cache
`CACHE_NAME`; whenever nothing is written every request matches what it
matched before, and when the path contains none of the routes as a substring
nothing is written and the storage is unchanged. -/
theorem handleAPIRequest_writes_iff (env : WorkerEnv) (cs : CacheStorage) (request : Request) :
    ((handleAPIRequest env cs request).trace.any Effect.isPutCall = true ↔
      ∃ response, env.fetch request = some response ∧ response.ok = true ∧
        ∃ route ∈ API_CACHE_ROUTES, route.data <:+: request.url.pathname.data) ∧
    ((handleAPIRequest env cs request).trace.any Effect.isCacheWrite = true ↔
      ∃ response, env.fetch request = some response ∧ response.ok = true ∧
        (∃ route ∈ API_CACHE_ROUTES, route.data <:+: request.url.pathname.data) ∧
        cachePutAccepts request response = true) ∧
    (∀ response, env.fetch request = some response → response.ok = true →
      (∃ route ∈ API_CACHE_ROUTES, route.data <:+: request.url.pathname.data) →
      cachePutAccepts request response = true →
      Effect.stored CACHE_NAME request response ∈ (handleAPIRequest env cs request).trace ∧
      (handleAPIRequest env cs request).caches
        = cachePut (cachesOpen cs CACHE_NAME) CACHE_NAME request response) ∧
    ((handleAPIRequest env cs request).trace.any Effect.isCacheWrite = false →
      ∀ other, cachesMatch (handleAPIRequest env cs request).caches other
        = cachesMatch cs other) ∧
    ((∀ route ∈ API_CACHE_ROUTES, ¬ route.data <:+: request.url.pathname.data) →
      (handleAPIRequest env cs request).trace.any Effect.isCacheWrite = false ∧
      (handleAPIRequest env cs request).caches = cs) := by
  have hany : API_CACHE_ROUTES.any (fun route => includes request.url.pathname route) = true ↔
      ∃ route ∈ API_CACHE_ROUTES, route.data <:+: request.url.pathname.data := by
    simp only [List.any_eq_true, includes_iff_infix]
  have hwrite : ∀ response : Response,
      [Effect.fetched request, Effect.opened CACHE_NAME,
        putEffect CACHE_NAME request response].any Effect.isCacheWrite
        = cachePutAccepts request response := by
    intro response
    simp only [List.any_cons, List.any_nil, putEffect_isCacheWrite]
    simp [Effect.isCacheWrite]
  have hcall : ∀ response : Response,
      [Effect.fetched request, Effect.opened CACHE_NAME,
        putEffect CACHE_NAME request response].any Effect.isPutCall = true := by
    intro response
    simp only [List.any_cons, List.any_nil, putEffect_isPutCall]
    simp
  rcases handleAPIRequest_cases env cs request with
    ⟨response, hnet, hok, hroute, heq⟩ | ⟨hno, hcs, hnocall, hnowrite⟩
  · rw [heq]
    refine ⟨?_, ?_, ?_, ?_, ?_⟩
    · simp only [hcall, true_iff]
      exact ⟨response, hnet, hok, hany.mp hroute⟩
    · rw [hwrite]
      constructor
      · intro hacc
        exact ⟨response, hnet, hok, hany.mp hroute, hacc⟩
      · rintro ⟨r, hr, _, _, hacc⟩
        cases Option.some.inj (hnet.symm.trans hr)
        exact hacc
    · intro r hr _ _ hacc
      cases Option.some.inj (hnet.symm.trans hr)
      constructor
      · simp [putEffect, hacc]
      · simp [openAndPut, hacc]
    · rw [hwrite]
      intro hrej other
      exact cachesMatch_openAndPut_rejected cs CACHE_NAME request response hrej other
    · intro hnone
      obtain ⟨route, hmem, hin⟩ := hany.mp hroute
      exact absurd hin (hnone route hmem)
  · refine ⟨?_, ?_, ?_, ?_, ?_⟩
    · rw [hnocall]
      simp only [Bool.false_eq_true, false_iff]
      rintro ⟨r, hr, hok, hroute⟩
      exact hno ⟨r, hr, hok, hany.mpr hroute⟩
    · rw [hnowrite]
      simp only [Bool.false_eq_true, false_iff]
      rintro ⟨r, hr, hok, hroute, _⟩
      exact hno ⟨r, hr, hok, hany.mpr hroute⟩
    · intro r hr hok hroute _
      exact absurd ⟨r, hr, hok, hany.mpr hroute⟩ hno
    · intro _ other
      rw [hcs]
    · intro _
      exact ⟨hnowrite, hcs⟩

/-- Witness of C10 (amended): online, `/api/parts` is written to the cache and
`/api/users/engineers` is not; the 206 answer to `/api/assets/manual.pdf` is
passed to `cache.put` and not written. -/
theorem handleAPIRequest_writes_iff_witness :
    (handleAPIRequest onlineEnv [] (getRequest "/api/parts" "cors")).trace.any
        Effect.isCacheWrite = true ∧
    (∃ response, onlineEnv.fetch (getRequest "/api/parts" "cors") = some response ∧
      response.ok = true ∧
      (∃ route ∈ API_CACHE_ROUTES,
        route.data <:+: (getRequest "/api/parts" "cors").url.pathname.data) ∧
      cachePutAccepts (getRequest "/api/parts" "cors") response = true) ∧
    (handleAPIRequest onlineEnv [] (getRequest "/api/users/engineers" "cors")).trace.any
        Effect.isCacheWrite = false ∧
    (handleAPIRequest partialEnv [] (getRequest "/api/assets/manual.pdf" "cors")).trace.any
        Effect.isPutCall = true ∧
    (handleAPIRequest partialEnv [] (getRequest "/api/assets/manual.pdf" "cors")).trace.any
        Effect.isCacheWrite = false :=
  ⟨by decide,
    (handleAPIRequest_writes_iff onlineEnv [] (getRequest "/api/parts" "cors")).2.1.mp (by decide),
    by decide, by decide, by decide⟩

/-! ## service-worker.js: static responses from the network, background sync -/

/-- After a put into an existing cache, a GET request that had no match gets
the response put. -/
theorem cachesMatch_cachePut_of_miss (cs : CacheStorage) (name : String) (rq : Request)
    (rsp : Response) (hget : rq.method = "GET") (hname : name ∈ cachesKeys cs)
    (hmiss : cachesMatch cs rq = none) :
    cachesMatch (cachePut cs name rq rsp) rq = some rsp := by
  have hself : ∀ c : Cache, cacheMatch (cachePutEntry c rq rsp) rq = some rsp := by
    intro c
    have hnone : List.find? (fun e => decide (e.1 = rq.url))
        (c.filter (fun e => decide (e.1 ≠ rq.url))) = none := by
      rw [List.find?_eq_none]
      intro e he
      simp only [List.mem_filter, decide_eq_true_eq] at he
      simpa using he.2
    simp [cacheMatch, cachePutEntry, hget, List.find?_append, hnone]
  unfold cachesMatch cachePut at *
  induction cs with
  | nil => simp [cachesKeys] at hname
  | cons nc rest ih =>
    simp only [List.findSome?_cons] at hmiss
    cases hnc : cacheMatch nc.2 rq with
    | some r => simp [hnc] at hmiss
    | none =>
      simp only [hnc] at hmiss
      simp only [List.map_cons, List.findSome?_cons]
      by_cases hn : nc.1 = name
      · simp [hn, hself]
      · have hname2 : name ∈ cachesKeys rest := by
          simp only [cachesKeys, List.map_cons, List.mem_cons] at hname
          rcases hname with h | h
          · exact absurd h.symm hn
          · exact h
        simp only [hn, if_false, hnc]
        exact ih hname2 hmiss

/-- C11, as stated, fails: the response of status 206 to `/media/intro.mp4`, a
GET request outside `/api/` with no cached match, is ok and is returned, and
no copy is in the cache afterwards, because `cache.put` rejects a 206
response. -/
theorem fetchListener_partial_not_written :
    ¬ ((getRequest "/media/intro.mp4" "no-cors").method = "GET" ∧
        startsWith (getRequest "/media/intro.mp4" "no-cors").url.pathname "/api/" = false ∧
        cachesMatch [] (getRequest "/media/intro.mp4" "no-cors") = none ∧
        partialEnv.fetch (getRequest "/media/intro.mp4" "no-cors")
          = some ⟨206, [("Content-Range", "bytes 0-1023/4096")], "/media/intro.mp4"⟩ →
      ((fetchListener partialEnv [] (getRequest "/media/intro.mp4" "no-cors")).trace.any
          Effect.isCacheWrite = true ↔
        (⟨206, [("Content-Range", "bytes 0-1023/4096")], "/media/intro.mp4"⟩ : Response).ok
          = true)) := by
  decide

/-- C11, amended: a GET request outside `/api/` with no cached match whose
fetch resolves is answered with the network response as it is; `cache.put` is
called with that request and that response if and only if `response.ok` is
true; the copy is written, and the request then matches it, if and only if in
addition `cache.put` accepts it (http(s) request URL, status other than 206,
no `Vary: *`); a response that is not ok is returned and the cache storage is
left as it was. -/
theorem fetchListener_static_miss_online (env : WorkerEnv) (cs : CacheStorage)
    (request : Request) (response : Response) (hget : request.method = "GET")
    (hstatic : startsWith request.url.pathname "/api/" = false)
    (hmiss : cachesMatch cs request = none) (hnet : env.fetch request = some response) :
    (fetchListener env cs request).responded = true ∧
    (fetchListener env cs request).response = some response ∧
    ((fetchListener env cs request).trace.any Effect.isPutCall = true ↔ response.ok = true) ∧
    ((fetchListener env cs request).trace.any Effect.isCacheWrite = true ↔
      response.ok = true ∧ cachePutAccepts request response = true) ∧
    (cachesMatch (fetchListener env cs request).caches request = some response ↔
      response.ok = true ∧ cachePutAccepts request response = true) ∧
    (response.ok = true → cachePutAccepts request response = true →
      Effect.stored CACHE_NAME request response ∈ (fetchListener env cs request).trace ∧
      (fetchListener env cs request).caches
        = cachePut (cachesOpen cs CACHE_NAME) CACHE_NAME request response) ∧
    (response.ok = false →
      (fetchListener env cs request).caches = cs ∧
      cachesMatch (fetchListener env cs request).caches request = none) := by
  cases hok : response.ok with
  | true =>
    have h : fetchListener env cs request
        = ⟨true, some response, openAndPut cs CACHE_NAME request response,
            [Effect.matched request, Effect.fetched request, Effect.opened CACHE_NAME,
              putEffect CACHE_NAME request response]⟩ := by
      simp [fetchListener, hget, hstatic, hmiss, hnet, hok]
    have hwrite : [Effect.matched request, Effect.fetched request, Effect.opened CACHE_NAME,
        putEffect CACHE_NAME request response].any Effect.isCacheWrite
        = cachePutAccepts request response := by
      simp only [List.any_cons, List.any_nil, putEffect_isCacheWrite]
      simp [Effect.isCacheWrite]
    have hcall : [Effect.matched request, Effect.fetched request, Effect.opened CACHE_NAME,
        putEffect CACHE_NAME request response].any Effect.isPutCall = true := by
      simp only [List.any_cons, List.any_nil, putEffect_isPutCall]
      simp
    rw [h]
    cases hacc : cachePutAccepts request response with
    | true =>
      have hstored : cachesMatch (openAndPut cs CACHE_NAME request response) request
          = some response := by
        simp only [openAndPut, hacc, if_true]
        exact cachesMatch_cachePut_of_miss _ _ _ _ hget (mem_cachesKeys_cachesOpen cs CACHE_NAME)
          (by rw [cachesMatch_cachesOpen]; exact hmiss)
      refine ⟨rfl, rfl, by simp [hcall], by simp [hwrite, hacc], by simp [hstored], ?_,
        by simp⟩
      intro _ _
      exact ⟨by simp [putEffect, hacc], by simp [openAndPut, hacc]⟩
    | false =>
      have hkept : cachesMatch (openAndPut cs CACHE_NAME request response) request = none := by
        rw [cachesMatch_openAndPut_rejected cs CACHE_NAME request response hacc, hmiss]
      refine ⟨rfl, rfl, by simp [hcall], by simp [hwrite, hacc], by simp [hkept], by simp,
        by simp⟩
  | false =>
    have h : fetchListener env cs request
        = ⟨true, some response, cs, [Effect.matched request, Effect.fetched request]⟩ := by
      simp [fetchListener, hget, hstatic, hmiss, hnet, hok]
    rw [h]
    refine ⟨rfl, rfl, by simp [Effect.isPutCall], by simp [Effect.isCacheWrite], by simp [hmiss],
      by simp, ?_⟩
    intro _
    exact ⟨rfl, hmiss⟩

/-- Witness of C11 (amended): online with an empty storage, `/logo192.png` is
fetched, returned and stored; the 206 answer to `/media/intro.mp4` is returned
and not stored. -/
theorem fetchListener_static_miss_online_witness :
    (getRequest "/logo192.png" "no-cors").method = "GET" ∧
    startsWith (getRequest "/logo192.png" "no-cors").url.pathname "/api/" = false ∧
    cachesMatch [] (getRequest "/logo192.png" "no-cors") = none ∧
    onlineEnv.fetch (getRequest "/logo192.png" "no-cors") = some ⟨200, [], "/logo192.png"⟩ ∧
    (fetchListener onlineEnv [] (getRequest "/logo192.png" "no-cors")).response
      = some ⟨200, [], "/logo192.png"⟩ ∧
    cachesMatch (fetchListener onlineEnv [] (getRequest "/logo192.png" "no-cors")).caches
      (getRequest "/logo192.png" "no-cors") = some ⟨200, [], "/logo192.png"⟩ ∧
    (fetchListener partialEnv [] (getRequest "/media/intro.mp4" "no-cors")).response
      = some ⟨206, [("Content-Range", "bytes 0-1023/4096")], "/media/intro.mp4"⟩ ∧
    cachesMatch (fetchListener partialEnv [] (getRequest "/media/intro.mp4" "no-cors")).caches
      (getRequest "/media/intro.mp4" "no-cors") = none :=
  ⟨by decide, by decide, by decide, rfl,
    (fetchListener_static_miss_online onlineEnv [] (getRequest "/logo192.png" "no-cors")
      ⟨200, [], "/logo192.png"⟩ (by decide) (by decide) (by decide) rfl).2.1,
    (fetchListener_static_miss_online onlineEnv [] (getRequest "/logo192.png" "no-cors")
      ⟨200, [], "/logo192.png"⟩ (by decide) (by decide) (by decide) rfl).2.2.2.2.1.mpr
        ⟨by decide, by decide⟩,
    (fetchListener_static_miss_online partialEnv [] (getRequest "/media/intro.mp4" "no-cors")
      ⟨206, [("Content-Range", "bytes 0-1023/4096")], "/media/intro.mp4"⟩
      (by decide) (by decide) (by decide) rfl).2.1,
    by decide⟩

/-- C12, on the code: for the tag `sync-job-completions` the listener waits for
`syncJobCompletions`, whose only call is one `console.log`; it opens no
IndexedDB database and sends no request. -/
theorem syncJobCompletions_only_logs :
    syncListener "sync-job-completions"
      = some [SyncCall.consoleLog "[SW] Syncing job completions"] ∧
    syncJobCompletions.any SyncCall.readsOrSends = false := by
  decide

/-! ## Scheduler.jsx: parking lot, calendar events, drop position -/

/-- C16: after a successful `GET /jobs` a job is in the parking lot if and only
if it is in the data and has no `scheduled_date`, or no
`assigned_engineer_id`, or the status `pending`; the lot is a sublist of the
data, in the same order. -/
theorem useUnscheduledJobs_exact (prev data : List Job) :
    (∀ job, job ∈ (useUnscheduledJobs prev (some data)).1 ↔
      job ∈ data ∧ (job.scheduled_date.truthy = false ∨ job.assigned_engineer_id.truthy = false
        ∨ job.status = JsVal.str "pending")) ∧
    List.Sublist (useUnscheduledJobs prev (some data)).1 data := by
  constructor
  · intro job
    simp only [useUnscheduledJobs, List.mem_filter, isUnscheduled, Bool.or_eq_true,
      Bool.not_eq_true', decide_eq_true_eq, or_assoc]
  · exact List.filter_sublist data

/-- Witness of C16: of a pending job, a job without engineer and a fully
scheduled job, the first two are in the lot, in that order. -/
theorem useUnscheduledJobs_exact_witness :
    (useUnscheduledJobs [] (some [jobPending, jobFullyScheduled, jobScheduledNoEngineer])).1
      = [jobPending, jobScheduledNoEngineer] ∧
    (jobFullyScheduled ∈
        (useUnscheduledJobs [] (some [jobPending, jobFullyScheduled, jobScheduledNoEngineer])).1 ↔
      jobFullyScheduled ∈ [jobPending, jobFullyScheduled, jobScheduledNoEngineer] ∧
        (jobFullyScheduled.scheduled_date.truthy = false
          ∨ jobFullyScheduled.assigned_engineer_id.truthy = false
          ∨ jobFullyScheduled.status = JsVal.str "pending")) :=
  ⟨by decide,
    (useUnscheduledJobs_exact [] [jobPending, jobFullyScheduled, jobScheduledNoEngineer]).1
      jobFullyScheduled⟩

/-- A `mapM` into `Option` succeeds when its function does on every element,
and then the results correspond to the elements one to one, in order. -/
theorem mapM_option_forall₂ {α β : Type} (f : α → Option β) (l : List α)
    (h : ∀ a ∈ l, (f a).isSome = true) :
    ∃ r, l.mapM f = some r ∧ List.Forall₂ (fun a b => f a = some b) l r := by
  induction l with
  | nil => exact ⟨[], rfl, List.Forall₂.nil⟩
  | cons a as ih =>
    obtain ⟨r, hr, hall⟩ := ih (fun x hx => h x (List.mem_cons_of_mem _ hx))
    obtain ⟨b, hb⟩ := Option.isSome_iff_exists.mp (h a (List.mem_cons_self _ _))
    refine ⟨b :: r, ?_, List.Forall₂.cons hb hall⟩
    rw [List.mapM_cons, hb, hr]
    rfl

/-- The event built for a job carries the job, its id and its engineer id. -/
theorem eventOfJob_fields (customers : List Customer) (engineers : List Engineer) (job : Job)
    (ev : CalendarEvent) (h : eventOfJob customers engineers job = some ev) :
    ev.resource = job ∧ ev.id = job.id ∧ ev.resourceId = job.assigned_engineer_id := by
  unfold eventOfJob at h
  simp only [Option.map_eq_some'] at h
  obtain ⟨start, _, rfl⟩ := h
  exact ⟨rfl, rfl, rfl⟩

/-- Events that correspond to jobs one to one carry the jobs, their ids and
their engineer ids, in order. -/
theorem forall₂_eventOfJob_fields (customers : List Customer) (engineers : List Engineer)
    (jobs : List Job) (evs : List CalendarEvent)
    (h : List.Forall₂ (fun job ev => eventOfJob customers engineers job = some ev) jobs evs) :
    evs.map (fun ev => ev.resource) = jobs ∧
    evs.map (fun ev => ev.id) = jobs.map (fun job => job.id) ∧
    evs.map (fun ev => ev.resourceId) = jobs.map (fun job => job.assigned_engineer_id) := by
  induction h with
  | nil => exact ⟨rfl, rfl, rfl⟩
  | cons hd _ ih =>
    obtain ⟨h1, h2, h3⟩ := eventOfJob_fields _ _ _ _ hd
    simp [h1, h2, h3, ih.1, ih.2.1, ih.2.2]

/-- The `map` callback of `events` returns an event when the time of the job is
empty or a string. -/
theorem eventOfJob_isSome (customers : List Customer) (engineers : List Engineer) (job : Job)
    (htime : job.scheduled_time.truthy = true → ∃ t, job.scheduled_time = JsVal.str t) :
    (eventOfJob customers engineers job).isSome = true := by
  unfold eventOfJob
  cases htr : job.scheduled_time.truthy with
  | false => simp
  | true =>
    obtain ⟨t, ht⟩ := htime htr
    simp [ht]

/-- C14: for scheduled jobs whose `scheduled_time` is empty or a string, the
events list exists and has exactly one event for each job with a
`scheduled_date`, in the order of the jobs, and none for the other jobs; each
event is built from its own job alone, carries that job, has
`id = job.id` and `resourceId = job.assigned_engineer_id`, so what the other
jobs of the list are (same engineer, same time or not) plays no part. -/
theorem events_one_per_scheduled_job (scheduledJobs : List Job) (customers : List Customer)
    (engineers : List Engineer)
    (htime : ∀ job ∈ scheduledJobs, job.scheduled_time.truthy = true →
      ∃ t, job.scheduled_time = JsVal.str t) :
    ∃ evs, events scheduledJobs customers engineers = some evs ∧
      evs.map (fun ev => ev.resource)
        = scheduledJobs.filter (fun job => job.scheduled_date.truthy) ∧
      evs.map (fun ev => ev.id)
        = (scheduledJobs.filter (fun job => job.scheduled_date.truthy)).map (fun job => job.id) ∧
      evs.map (fun ev => ev.resourceId)
        = (scheduledJobs.filter (fun job => job.scheduled_date.truthy)).map
            (fun job => job.assigned_engineer_id) ∧
      List.Forall₂ (fun job ev => eventOfJob customers engineers job = some ev)
        (scheduledJobs.filter (fun job => job.scheduled_date.truthy)) evs := by
  obtain ⟨evs, hevs, hall⟩ := mapM_option_forall₂ (eventOfJob customers engineers)
    (scheduledJobs.filter (fun job => job.scheduled_date.truthy))
    (fun job hjob => eventOfJob_isSome customers engineers job
      (htime job (List.mem_filter.mp hjob).1))
  have hfields := forall₂_eventOfJob_fields customers engineers _ evs hall
  exact ⟨evs, hevs, hfields.1, hfields.2.1, hfields.2.2, hall⟩

/-- Witness of C14: two jobs of engineer `e1` at the same date and time both
get their event, and the pending job without a date gets none. -/
theorem events_one_per_scheduled_job_witness :
    (∀ job ∈ [jobFullyScheduled, jobPending, jobOverlapping],
      job.scheduled_time.truthy = true → ∃ t, job.scheduled_time = JsVal.str t) ∧
    (∃ evs, events [jobFullyScheduled, jobPending, jobOverlapping] someCustomers someEngineers
        = some evs ∧
      evs.map (fun ev => ev.resource) = [jobFullyScheduled, jobOverlapping]) :=
  have htime : ∀ job ∈ [jobFullyScheduled, jobPending, jobOverlapping],
      job.scheduled_time.truthy = true → ∃ t, job.scheduled_time = JsVal.str t := by
    intro job hjob htr
    simp only [List.mem_cons, List.mem_singleton, List.not_mem_nil, or_false] at hjob
    rcases hjob with rfl | rfl | rfl
    · exact ⟨"10:00", rfl⟩
    · exact absurd htr (by decide)
    · exact ⟨"10:00", rfl⟩
  ⟨htime,
    (events_one_per_scheduled_job [jobFullyScheduled, jobPending, jobOverlapping] someCustomers
      someEngineers htime).imp (fun _ h => ⟨h.1, h.2.1⟩)⟩

/-- The decimal digits of a number below 10000, as `Nat.toDigits` gives
them. -/
theorem toDigits_lt_10000 (n : Nat) (h : n < 10000) :
    Nat.toDigits 10 n =
      if n < 10 then [Nat.digitChar n]
      else if n < 100 then [Nat.digitChar (n / 10), Nat.digitChar (n % 10)]
      else if n < 1000 then
        [Nat.digitChar (n / 100), Nat.digitChar (n / 10 % 10), Nat.digitChar (n % 10)]
      else
        [Nat.digitChar (n / 1000), Nat.digitChar (n / 100 % 10), Nat.digitChar (n / 10 % 10),
          Nat.digitChar (n % 10)] := by
  have hstep : ∀ (fuel m : Nat) (ds : List Char), Nat.toDigitsCore 10 (fuel + 1) m ds
      = if m / 10 = 0 then Nat.digitChar (m % 10) :: ds
        else Nat.toDigitsCore 10 fuel (m / 10) (Nat.digitChar (m % 10) :: ds) := by
    intro fuel m ds
    rfl
  unfold Nat.toDigits
  by_cases h1 : n < 10
  · rw [hstep, if_pos (by omega), if_pos h1, Nat.mod_eq_of_lt h1]
  · by_cases h2 : n < 100
    · obtain ⟨k, rfl⟩ : ∃ k, n = k + 1 := ⟨n - 1, by omega⟩
      rw [hstep, if_neg (by omega), hstep, if_pos (by omega), if_neg h1, if_pos h2,
        Nat.mod_eq_of_lt (show (k + 1) / 10 < 10 by omega)]
    · by_cases h3 : n < 1000
      · obtain ⟨k, rfl⟩ : ∃ k, n = k + 2 := ⟨n - 2, by omega⟩
        rw [hstep, if_neg (by omega), hstep, if_neg (by omega), hstep, if_pos (by omega),
          if_neg h1, if_neg h2, if_pos h3, Nat.div_div_eq_div_mul,
          Nat.mod_eq_of_lt (show (k + 2) / (10 * 10) < 10 by omega)]
      · obtain ⟨k, rfl⟩ : ∃ k, n = k + 3 := ⟨n - 3, by omega⟩
        rw [hstep, if_neg (by omega), hstep, if_neg (by omega), hstep, if_neg (by omega), hstep,
          if_pos (by omega), if_neg h1, if_neg h2, if_neg h3]
        simp only [Nat.div_div_eq_div_mul]
        rw [Nat.mod_eq_of_lt (show (k + 3) / (10 * 10 * 10) < 10 by omega)]

/-- The characters of `zeroPad width n` are the padding zeros followed by the
decimal digits of `n`. -/
theorem zeroPad_data (width n : Nat) :
    (zeroPad width n).data
      = List.replicate (width - (Nat.toDigits 10 n).length) '0' ++ Nat.toDigits 10 n := by
  rfl

/-- A number below 10000 is padded to its four decimal digits. -/
theorem zeroPad_four (n : Nat) (h : n < 10000) :
    (zeroPad 4 n).data
      = [Nat.digitChar (n / 1000), Nat.digitChar (n / 100 % 10), Nat.digitChar (n / 10 % 10),
          Nat.digitChar (n % 10)] := by
  rw [zeroPad_data, toDigits_lt_10000 n h]
  by_cases h1 : n < 10
  · have e1 : n / 1000 = 0 := by omega
    have e2 : n / 100 % 10 = 0 := by omega
    have e3 : n / 10 % 10 = 0 := by omega
    have e4 : n % 10 = n := by omega
    rw [if_pos h1, e1, e2, e3, e4]
    rfl
  · by_cases h2 : n < 100
    · have e1 : n / 1000 = 0 := by omega
      have e2 : n / 100 % 10 = 0 := by omega
      have e3 : n / 10 % 10 = n / 10 := by omega
      rw [if_neg h1, if_pos h2, e1, e2, e3]
      rfl
    · by_cases h3 : n < 1000
      · have e1 : n / 1000 = 0 := by omega
        have e2 : n / 100 % 10 = n / 100 := by omega
        rw [if_neg h1, if_neg h2, if_pos h3, e1, e2]
        rfl
      · rw [if_neg h1, if_neg h2, if_neg h3]
        rfl

/-- A number below 100 is padded to its two decimal digits. -/
theorem zeroPad_two (n : Nat) (h : n < 100) :
    (zeroPad 2 n).data = [Nat.digitChar (n / 10), Nat.digitChar (n % 10)] := by
  rw [zeroPad_data, toDigits_lt_10000 n (by omega)]
  by_cases h1 : n < 10
  · have e1 : n / 10 = 0 := by omega
    have e2 : n % 10 = n := by omega
    rw [if_pos h1, e1, e2]
    rfl
  · rw [if_neg h1, if_pos h]
    rfl

/-- The format `YYYY-MM-DD`: for a date with a year below 10000, `formatYMD`
gives the four digits of the year, a hyphen, the two digits of the month, a
hyphen and the two digits of the day. -/
theorem formatYMD_digits (d : JsDate) (hy : d.year < 10000) (hm : d.month < 100)
    (hd : d.day < 100) :
    (formatYMD d).data
      = [Nat.digitChar (d.year / 1000), Nat.digitChar (d.year / 100 % 10),
          Nat.digitChar (d.year / 10 % 10), Nat.digitChar (d.year % 10), '-',
          Nat.digitChar (d.month / 10), Nat.digitChar (d.month % 10), '-',
          Nat.digitChar (d.day / 10), Nat.digitChar (d.day % 10)] := by
  simp only [formatYMD, String.data_append, zeroPad_four d.year hy, zeroPad_two d.month hm,
    zeroPad_two d.day hd]
  rfl

/-- C15, on the code: with the drop zone first rendered while the calendar
was on 9 March 2025, and the calendar then navigated to 14 April 2025, a drop
of `jobScheduledNoEngineer` sends `scheduled_date` `2025-03-09`, the date of
the first render, and the toast names that date, while the focus date is
`2025-04-14`. For every drop, the requests and toasts are those of the handler
of the first render: they depend neither on the position of the drop nor on
the current state; the one request sets `scheduled_date` to the date of the
first render formatted `YYYY-MM-DD` and `scheduled_time` to `09:00`, and sends
no `assigned_engineer_id`. -/
theorem drop_after_navigation_sends_first_date :
    dropOnMountedCalendar schedulerAtMarch9 (handleNavigate schedulerAtMarch9 ⟨2025, 4, 14⟩)
        ⟨jobScheduledNoEngineer⟩ ⟨some (640, 120)⟩ true
      = ([⟨"PUT", "/jobs/7",
            [("scheduled_date", JsVal.str "2025-03-09"), ("scheduled_time", JsVal.str "09:00")]⟩],
          [Toast.success "Job JOB-0007 scheduled for 2025-03-09"]) ∧
    formatYMD (handleNavigate schedulerAtMarch9 ⟨2025, 4, 14⟩).date = "2025-04-14" ∧
    (∀ (first current other : SchedulerState) (item : DragItem) (monitor position : DropMonitor)
        (putOk : Bool),
      dropOnMountedCalendar first current item monitor putOk
        = dropOnMountedCalendar first other item position putOk ∧
      (dropOnMountedCalendar first current item monitor putOk).1
        = [⟨"PUT", "/jobs/" ++ item.job.id.toStr,
            [("scheduled_date", JsVal.str (formatYMD first.date)),
              ("scheduled_time", JsVal.str "09:00")]⟩] ∧
      (∀ r ∈ (dropOnMountedCalendar first current item monitor putOk).1,
        "assigned_engineer_id" ∉ r.body.map Prod.fst) ∧
      (dropOnMountedCalendar first current item monitor true).2
        = [Toast.success ("Job " ++ item.job.job_number.toStr ++ " scheduled for "
            ++ formatYMD first.date)]) ∧
    (∀ d : JsDate, d.year < 10000 → d.month < 100 → d.day < 100 →
      (formatYMD d).data
        = [Nat.digitChar (d.year / 1000), Nat.digitChar (d.year / 100 % 10),
            Nat.digitChar (d.year / 10 % 10), Nat.digitChar (d.year % 10), '-',
            Nat.digitChar (d.month / 10), Nat.digitChar (d.month % 10), '-',
            Nat.digitChar (d.day / 10), Nat.digitChar (d.day % 10)]) := by
  refine ⟨by decide, by decide, ?_, formatYMD_digits⟩
  intro first current other item monitor position putOk
  cases putOk <;> simp [dropOnMountedCalendar, calendarDropZoneDrop, handleDropOnCalendar]

/-! ## PortalAccess.jsx: theorems -/

/-- An event other than a successful create leaves a null `newAccessCode`
null. -/
theorem portalStep_keeps_null (s : PortalState) (e : PortalEvent)
    (hnull : s.newAccessCode = none) (hother : e.isSubmitResolved = false) :
    (portalStep s e).newAccessCode = none := by
  cases e <;> simp_all [portalStep, PortalEvent.isSubmitResolved]
  all_goals split <;> simp_all

/-- A run of events without a successful create leaves a null `newAccessCode`
null. -/
theorem portalRun_keeps_null (events : List PortalEvent) (s : PortalState)
    (hnull : s.newAccessCode = none) (hother : ∀ e ∈ events, e.isSubmitResolved = false) :
    (portalRun s events).newAccessCode = none := by
  induction events generalizing s with
  | nil => exact hnull
  | cons e es ih =>
    simp only [portalRun, List.foldl_cons]
    exact ih (portalStep s e)
      (portalStep_keeps_null s e hnull (hother e (List.mem_cons_self _ _)))
      (fun x hx => hother x (List.mem_cons_of_mem _ hx))

/-- C13: `newAccessCode` is null at the first render; a step that leaves it
non-null from null is a successful create; the Done button and a dialog close
set it to null, and from there it stays null along every run of events with
no successful create; a row of the access table is the same whatever the
entry holds as `access_code`. -/
theorem portalAccess_code_shown_once :
    portalInitial.newAccessCode = none ∧
    (∀ (s : PortalState) (e : PortalEvent), s.newAccessCode = none →
      (portalStep s e).newAccessCode ≠ none → e.isSubmitResolved = true) ∧
    (∀ s : PortalState, (portalStep s PortalEvent.doneClicked).newAccessCode = none ∧
      (portalStep s (PortalEvent.openChange false)).newAccessCode = none) ∧
    (∀ (s : PortalState) (events : List PortalEvent),
      (∀ e ∈ events, e.isSubmitResolved = false) →
      (portalRun (portalStep s PortalEvent.doneClicked) events).newAccessCode = none ∧
      (portalRun (portalStep s (PortalEvent.openChange false)) events).newAccessCode = none) ∧
    (∀ (access : PortalAccessEntry) (code : JsVal),
      accessRow ⟨access.id, access.customer_name, access.contact_name, access.email,
        access.created_at, access.last_login, code⟩ = accessRow access) := by
  refine ⟨rfl, ?_, fun s => ⟨rfl, rfl⟩, ?_, fun access code => rfl⟩
  · intro s e hnull hset
    cases he : e.isSubmitResolved with
    | true => rfl
    | false => exact absurd (portalStep_keeps_null s e hnull he) hset
  · intro s events hother
    exact ⟨portalRun_keeps_null events _ rfl hother, portalRun_keeps_null events _ rfl hother⟩

/-- Witness of C13: a create shows the code; after Done, reopening the dialog,
a reload of the list that holds the code, a revoke and a cancel leave
`newAccessCode` null, and the row of that entry shows no code. -/
theorem portalAccess_code_shown_once_witness :
    (portalStep portalInitial
        (PortalEvent.submitResolved (JsVal.str "X7K2-9QLM") (JsVal.str "pat@acme.example")
          (JsVal.str "Acme Foods"))).newAccessCode
      = some ⟨JsVal.str "X7K2-9QLM", JsVal.str "pat@acme.example", JsVal.str "Acme Foods"⟩ ∧
    (portalRun
        (portalStep
          (portalStep portalInitial
            (PortalEvent.submitResolved (JsVal.str "X7K2-9QLM") (JsVal.str "pat@acme.example")
              (JsVal.str "Acme Foods")))
          PortalEvent.doneClicked)
        [PortalEvent.fetchDataResolved [entryWithCode] someCustomers, PortalEvent.openChange true,
          PortalEvent.emailChanged "x", PortalEvent.revokeRan,
          PortalEvent.cancelClicked]).newAccessCode = none ∧
    accessRow entryWithCode
      = some ⟨JsVal.str "a1", "portal-access-row-a1", "Acme Foods", "Pat Doe", "pat@acme.example",
          "2025-03-01", "Never", "revoke-access-a1"⟩ :=
  ⟨by decide,
    (portalAccess_code_shown_once.2.2.2.1 _ _ (by decide)).1,
    by decide⟩

end FieldDashboard
